import Mathlib

/-!
The vd virtual device: parameter cells and the stream dispatcher.

A shallow embedding of `parameter/parameter.go` and `stream/device.go`.

Conventions of the embedding.

* A Go `string` and a Go `[]byte` are both a list of bytes (`GoString`); a nil
  slice and an empty slice are both the empty list, except for the input
  terminator, where the splitter tests `== nil` and the field is an `Option`.
* A value of interface type `any` is a `GoAny`: one constructor for each of the
  seven dynamic types a parameter cell can hold, `nil`, and `other` for a value
  of any further dynamic type, with the `reflect.Kind` of that type when it is
  one of the seven (a named type such as `type myInt int`).
* `ConcreteParameter[T]` is instantiated by `newParameter` with the `T` that
  belongs to `typ`, so the model keeps `typ` and represents a `T` by a `GoAny`
  whose dynamic type is `typ`; the assertion `val.(T)` succeeds exactly when the
  dynamic type of `val` is `typ`.
* Library routines whose result the device only passes on (`strconv.ParseFloat`,
  `fmt.Sprintf`, `time.ParseDuration`) are fields of `GoLib`, a parameter of the
  development. `strconv.Atoi` and `strconv.ParseInt` in base 10 are modelled.
* A nil-pointer dereference is the outcome `Exec.panic`; a scan loop that never
  ends is the outcome `Exec.diverge`.
-/

namespace VD

deriving instance DecidableEq for Except

/-! ## Go values -/

abbrev Byte := Fin 256

abbrev GoString := List Byte

/-- The bytes of an ASCII literal. -/
def ascii (s : String) : GoString :=
  s.toList.map (fun c => Fin.ofNat c.toNat)

/-- The `reflect.Kind` values that `New` dispatches on. -/
inductive Kind
  | Int | Int32 | Int64 | Float32 | Float64 | Bool | String
  deriving DecidableEq, Repr

/-- A value of interface type `any`. Floats are their IEEE 754 bit patterns.
`other k` is a value of a dynamic type other than the seven predeclared ones;
`k` is the `reflect.Kind` of that type when it is among the seven kinds. -/
inductive GoAny
  | int (v : Int)
  | int32 (v : Int)
  | int64 (v : Int)
  | float32 (bits : Nat)
  | float64 (bits : Nat)
  | bool (v : Bool)
  | string (v : GoString)
  | nil
  | other (reflectKind : Option Kind)
  deriving DecidableEq, Repr

/-- The kind of the dynamic type of a value, when that type is one of the seven
predeclared types, the only ones a type assertion `val.(T)` of a cell accepts. -/
def GoAny.kind : GoAny → Option Kind
  | .int _ => some Kind.Int
  | .int32 _ => some Kind.Int32
  | .int64 _ => some Kind.Int64
  | .float32 _ => some Kind.Float32
  | .float64 _ => some Kind.Float64
  | .bool _ => some Kind.Bool
  | .string _ => some Kind.String
  | .nil => none
  | .other _ => none

/-- The zero value of the type `T` that belongs to a kind. -/
def zeroValue : Kind → GoAny
  | Kind.Int => .int 0
  | Kind.Int32 => .int32 0
  | Kind.Int64 => .int64 0
  | Kind.Float32 => .float32 0
  | Kind.Float64 => .float64 0
  | Kind.Bool => .bool false
  | Kind.String => .string []

/-- IEEE 754 `==` on bit patterns with `e` exponent bits and `m` mantissa bits:
a NaN equals nothing, the two zeros are equal. -/
def floatEq (e m a b : Nat) : Bool :=
  let isNaN := fun x : Nat => (x / 2 ^ m) % 2 ^ e == 2 ^ e - 1 && x % 2 ^ m != 0
  let isZero := fun x : Nat => x % 2 ^ (e + m) == 0
  !isNaN a && !isNaN b && (a % 2 ^ (e + m + 1) == b % 2 ^ (e + m + 1) || (isZero a && isZero b))

/-- Go's `==` between two interface values: identical dynamic types and equal
values. A value of a further type never equals a cell value. -/
def goEq : GoAny → GoAny → Bool
  | .int a, .int b => a == b
  | .int32 a, .int32 b => a == b
  | .int64 a, .int64 b => a == b
  | .float32 a, .float32 b => floatEq 8 23 a b
  | .float64 a, .float64 b => floatEq 11 52 a b
  | .bool a, .bool b => a == b
  | .string a, .string b => a == b
  | _, _ => false

/-- Library routines taken as parameters. `parseFloat32 s` is the bit pattern of
`float32(f)` for `f, err := strconv.ParseFloat(s, 32)` with `err == nil`;
`Sprintf format v` is `fmt.Sprintf(format, v)`; `ParseDuration` gives
nanoseconds. -/
structure GoLib where
  parseFloat32 : GoString → Option Nat
  parseFloat64 : GoString → Option Nat
  Sprintf : GoString → GoAny → GoString
  ParseDuration : GoString → Option Int

/-! ## strconv -/

/-- Width of `int`. -/
def intSize : Nat := 64

def isDigit (b : Byte) : Bool := 48 ≤ b.val && b.val ≤ 57

/-- Value of a non-empty run of decimal digits (`strconv.ParseUint` in base 10,
before its range check). -/
def parseDigits (s : GoString) : Option Nat :=
  if s ≠ [] ∧ s.all isDigit = true then
    some (s.foldl (fun n b => 10 * n + (b.val - 48)) 0)
  else none

/-- Model of `strconv.ParseInt(s, 10, bitSize)`, `none` for an error: an optional
sign, at least one digit, nothing else, and the value in the range of the
width. -/
def ParseInt (s : GoString) (bitSize : Nat) : Option Int :=
  match s with
  | [] => none
  | c :: rest =>
    let neg : Bool := c.val == 45
    let body := if c.val == 43 || c.val == 45 then rest else s
    match parseDigits body with
    | none => none
    | some un =>
      let cutoff := 2 ^ (bitSize - 1)
      if !neg && un ≥ cutoff then none
      else if neg && un > cutoff then none
      else some (if neg then -(un : Int) else (un : Int))

/-- Model of `strconv.Atoi`. -/
def Atoi (s : GoString) : Option Int := ParseInt s intSize

/-- Model of `strings.Split(s, sep)` for a one-byte separator. -/
def Split (sep : Byte) : GoString → List GoString
  | [] => [[]]
  | c :: cs =>
    if c = sep then [] :: Split sep cs
    else
      match Split sep cs with
      | [] => [[c]]
      | h :: t => (c :: h) :: t

/-! ## package parameter -/

inductive ParamError
  | ErrValNotFound
  | ErrValNotAllowed
  | ErrWrongStringVal
  | ErrUnknownParamType
  | ErrWrongIntVal
  | ErrWrongFloatVal
  | ErrWrongBoolVal
  | ErrWrongTypeVal
  | ErrUnhandledTypeVal
  deriving DecidableEq, Repr

/-- The cell `ConcreteParameter[T]`; `val` and the members of `opts` stand for
values of type `T`. -/
structure ConcreteParameter where
  typ : Kind
  val : GoAny
  opts : List GoAny
  deriving DecidableEq, Repr

/-- A cell as the constructor builds it: value and options are of its kind. -/
def ConcreteParameter.WellTyped (p : ConcreteParameter) : Prop :=
  p.val.kind = some p.typ ∧ ∀ o ∈ p.opts, o.kind = some p.typ

def convertStringToVal (lib : GoLib) (typ : Kind) (val : GoString) : Except ParamError GoAny :=
  match typ with
  | Kind.Int =>
    match Atoi val with
    | some intVal => .ok (.int intVal)
    | none => .error .ErrWrongIntVal
  | Kind.Int32 =>
    match ParseInt val 32 with
    | some intVal => .ok (.int32 intVal)
    | none => .error .ErrWrongIntVal
  | Kind.Int64 =>
    match ParseInt val 64 with
    | some intVal => .ok (.int64 intVal)
    | none => .error .ErrWrongIntVal
  | Kind.Float32 =>
    match lib.parseFloat32 val with
    | some bits => .ok (.float32 bits)
    | none => .error .ErrWrongFloatVal
  | Kind.Float64 =>
    match lib.parseFloat64 val with
    | some bits => .ok (.float64 bits)
    | none => .error .ErrWrongFloatVal
  | Kind.Bool =>
    if val = ascii "true" then .ok (.bool true)
    else if val = ascii "false" then .ok (.bool false)
    else .error .ErrWrongBoolVal
  | Kind.String => .error .ErrUnhandledTypeVal

/-- The first half of `SetValue` (lines 91 to 104): the value `valT` to store,
from a native value or from a string. -/
def coerce (lib : GoLib) (typ : Kind) (val : GoAny) : Except ParamError GoAny :=
  if val.kind = some typ then .ok val
  else
    match val with
    | .string valStr => convertStringToVal lib typ valStr
    | _ => .error .ErrWrongTypeVal

/-- The loop of `SetValue` over `p.opts`: it compares each option with the
argument `val` as it was passed in. -/
def isFound (opts : List GoAny) (val : GoAny) : Bool :=
  opts.any (fun t => goEq t val)

/-- The state of the cell after the call, and the error returned. -/
def SetValue (lib : GoLib) (p : ConcreteParameter) (val : GoAny) :
    ConcreteParameter × Option ParamError :=
  match coerce lib p.typ val with
  | .error err => (p, some err)
  | .ok valT =>
    if p.opts.length > 0 ∧ isFound p.opts val = false then
      (p, some .ErrValNotAllowed)
    else
      ({ p with val := valT }, none)

def ConcreteParameter.Type (p : ConcreteParameter) : Kind := p.typ

def ConcreteParameter.Value (p : ConcreteParameter) : GoAny := p.val

def ConcreteParameter.String (lib : GoLib) (p : ConcreteParameter) : GoString :=
  lib.Sprintf (ascii "%v") p.val

def ConcreteParameter.Opts (lib : GoLib) (p : ConcreteParameter) : List GoString :=
  p.opts.map (fun opt => lib.Sprintf (ascii "%v") opt)

def buildOptions (lib : GoLib) (typ : Kind) (opt : GoString) : Except ParamError (List GoAny) :=
  if opt ≠ [] then
    let splits := Split 124 opt
    match typ with
    | Kind.Int =>
      splits.mapM (fun val =>
        match Atoi val with
        | some intVal => Except.ok (GoAny.int intVal)
        | none => Except.error ParamError.ErrWrongIntVal)
    | Kind.Int32 =>
      splits.mapM (fun val =>
        match ParseInt val 32 with
        | some intVal => Except.ok (GoAny.int32 intVal)
        | none => Except.error ParamError.ErrWrongIntVal)
    | Kind.Int64 =>
      splits.mapM (fun val =>
        match ParseInt val 64 with
        | some intVal => Except.ok (GoAny.int64 intVal)
        | none => Except.error ParamError.ErrWrongIntVal)
    | Kind.Float32 =>
      splits.mapM (fun val =>
        match lib.parseFloat32 val with
        | some bits => Except.ok (GoAny.float32 bits)
        | none => Except.error ParamError.ErrWrongFloatVal)
    | Kind.Float64 =>
      splits.mapM (fun val =>
        match lib.parseFloat64 val with
        | some bits => Except.ok (GoAny.float64 bits)
        | none => Except.error ParamError.ErrWrongFloatVal)
    | Kind.String => .ok (splits.map GoAny.string)
    | Kind.Bool =>
      .ok (splits.map (fun valStr =>
        if valStr = ascii "true" then GoAny.bool true
        else if valStr = ascii "false" then GoAny.bool false
        else GoAny.bool false))
  else .ok []

def newParameter (lib : GoLib) (typ : Kind) (val : GoAny) (opt : GoString) :
    Except ParamError ConcreteParameter :=
  match buildOptions lib typ opt with
  | .error err => .error err
  | .ok opts =>
    let param : ConcreteParameter := { typ := typ, val := zeroValue typ, opts := opts }
    match SetValue lib param val with
    | (_, some err) => .error err
    | (param, none) => .ok param

/-- The constructor; `none` is the panic of `reflect.TypeOf(nil).Kind()`. It
dispatches on `reflect.TypeOf(val).Kind()`, which for a value of a named type is
the kind of the underlying type. -/
def New (lib : GoLib) (val : GoAny) (opt : GoString) :
    Option (Except ParamError ConcreteParameter) :=
  match val with
  | .nil => none
  | .other (some k) => some (newParameter lib k val opt)
  | .other none => some (.error .ErrUnknownParamType)
  | _ =>
    match val.kind with
    | some k => some (newParameter lib k val opt)
    | none => some (.error .ErrUnknownParamType)

/-- A library instance for evaluating examples that use no float and no format. -/
def plainLib : GoLib where
  parseFloat32 := fun _ => none
  parseFloat64 := fun _ => none
  Sprintf := fun format _ => format
  ParseDuration := fun _ => none

/-! ## package stream -/

/-- Outcome of a call: it returns, it panics on a nil parameter, or it never
returns. -/
inductive Exec (α : Type)
  | ret (a : α)
  | panic
  | diverge

/-- Durations are nanosecond counts (`time.Duration`). -/
abbrev Duration := Int

/-- The item types of the lexer that `constructOutput` distinguishes; every other
type is `ItemOther`. -/
inductive ItemType
  | ItemCommand
  | ItemWhiteSpace
  | ItemNumberValuePlaceholder
  | ItemStringValuePlaceholder
  | ItemOther
  deriving DecidableEq, Repr

/-- A `lexer.Item`, by its `Type()` and `Value()`. -/
structure Item where
  typ : ItemType
  val : GoString
  deriving DecidableEq, Repr

structure streamCommand where
  Param : GoString
  Req : GoString
  Res : GoString
  Set : GoString
  Ack : GoString
  reqItems : List Item
  resItems : List Item
  setItems : List Item
  ackItems : List Item
  resDelay : Duration
  ackDelay : Duration
  deriving DecidableEq, Repr

inductive CommandType
  | CommandReq
  | CommandSet
  | CommandOther
  deriving DecidableEq, Repr

/-- A `parser.CommandPattern`. -/
structure CommandPattern where
  Items : List Item
  Typ : CommandType
  Parameter : GoString
  deriving DecidableEq, Repr

/-- What `parser.Parse` returns for a token it recognises. -/
structure Command where
  Typ : CommandType
  Parameter : GoString
  Value : GoAny
  deriving DecidableEq, Repr

/-- The map `param`: each key holds its own cell. -/
abbrev ParamMap := List (GoString × ConcreteParameter)

/-- The lookup `m[name]`; `none` is the nil interface of a missing key. -/
def ParamMap.get : ParamMap → GoString → Option ConcreteParameter
  | [], _ => none
  | (k, v) :: rest, name => if k = name then some v else ParamMap.get rest name

/-- The map after the cell held under `name` has become `v`. -/
def ParamMap.set : ParamMap → GoString → ConcreteParameter → ParamMap
  | [], _, _ => []
  | (k, v) :: rest, name, w =>
    if k = name then (k, w) :: rest else (k, v) :: ParamMap.set rest name w

/-- The unbuffered channel `triggered`, seen from the sender: whether a reader
is blocked in a receive, and the payloads handed to readers so far. -/
structure TriggerChan where
  waiting : Bool
  received : List GoString
  deriving DecidableEq, Repr

/-- The device. `inTerminator` is the `vdfile.InTerminator` that the splitter
closure holds, `parser` is `Parse` of the parser built at construction (`none`
for an error), and `slept` is the total time the dispatch path has spent in
`time.Sleep`. -/
structure StreamDevice where
  param : ParamMap
  streamCmd : List streamCommand
  outTerminator : GoString
  globResDel : Duration
  globAckDel : Duration
  inTerminator : Option GoString
  parser : GoString → Option Command
  mismatch : GoString
  slept : Duration
  triggered : TriggerChan := { waiting := false, received := [] }

inductive DeviceError
  | parameterNotFound (name : GoString)
  | paramNotFound (name : GoString)
  | delayNotFound (typ : GoString)
  | mismatchTooLong (value : GoString)
  | durationSyntax (val : GoString)
  | ErrParamNotFound
  | ErrNoClient
  | parameter (err : ParamError)
  deriving DecidableEq, Repr

def mismatchLimit : Nat := 255

/-- The configuration consumed by `NewDevice`, by the fields it reads. -/
structure VDFile where
  Param : ParamMap
  StreamCmd : List streamCommand
  InTerminator : Option GoString
  OutTerminator : GoString
  ResDelay : Duration
  AckDelay : Duration
  Mismatch : GoString

/-- Model of `bytes.Index`: offset of the first occurrence of `sep` in `data`. -/
def Index : GoString → GoString → Option Nat
  | [], sep => if sep = [] then some 0 else none
  | c :: rest, sep =>
    if sep.isPrefixOf (c :: rest) then some 0
    else (Index rest sep).map (fun i => i + 1)

/-- The split function installed by `NewDevice`: the advance and the token (the
error is always nil). -/
def splitter (inTerminator : Option GoString) (data : GoString) (atEOF : Bool) :
    Nat × Option GoString :=
  if atEOF && data.length == 0 then (0, none)
  else
    match inTerminator with
    | none => (0, none)
    | some term =>
      match Index data term with
      | some i => (i + term.length, some (data.take i))
      | none => if atEOF then (data.length, some data) else (0, none)

/-- The two loops of `buildCommandPatterns`, each appending to `patterns`. -/
def buildCommandPatterns (scmd : List streamCommand) : List CommandPattern :=
  let patterns : List CommandPattern := []
  let patterns := scmd.foldl (fun patterns cmd =>
    if cmd.reqItems.length = 0 then patterns
    else patterns ++ [{ Items := cmd.reqItems, Typ := CommandType.CommandReq,
                        Parameter := cmd.Param }]) patterns
  let patterns := scmd.foldl (fun patterns cmd =>
    if cmd.setItems.length = 0 then patterns
    else patterns ++ [{ Items := cmd.setItems, Typ := CommandType.CommandSet,
                        Parameter := cmd.Param }]) patterns
  patterns

/-- The device built from a configuration; `parserNew` is `parser.New`. -/
def NewDevice (parserNew : List CommandPattern → GoString → Option Command)
    (vdfile : VDFile) : StreamDevice where
  param := vdfile.Param
  streamCmd := vdfile.StreamCmd
  outTerminator := vdfile.OutTerminator
  globResDel := vdfile.ResDelay
  globAckDel := vdfile.AckDelay
  inTerminator := vdfile.InTerminator
  parser := parserNew (buildCommandPatterns vdfile.StreamCmd)
  mismatch := vdfile.Mismatch
  slept := 0
  triggered := { waiting := false, received := [] }

def StreamDevice.Mismatch (s : StreamDevice) : GoString :=
  if s.mismatch.length ≠ 0 then s.mismatch ++ s.outTerminator else []

def constructOutput (lib : GoLib) (items : List Item) (value : GoAny) : GoString :=
  if value = GoAny.nil then []
  else
    items.foldl (fun out i =>
      match i.typ with
      | .ItemCommand => out ++ i.val
      | .ItemWhiteSpace => out ++ i.val
      | .ItemNumberValuePlaceholder => out ++ lib.Sprintf i.val value
      | .ItemStringValuePlaceholder => out ++ lib.Sprintf i.val value
      | .ItemOther => out) []

def effectiveDelay (g d : Duration) : Duration :=
  if d ≤ 0 then
    if g ≤ 0 then 0 else g
  else d

/-- The time `delayOperation` sleeps: nothing when the effective delay is not
positive. -/
def delayOperation (g d : Duration) : Duration :=
  let t := effectiveDelay g d
  if t ≤ 0 then 0 else t

/-- The device after `delayAck(d)` has slept. -/
def StreamDevice.delayAck (s : StreamDevice) (d : Duration) : StreamDevice :=
  { s with slept := s.slept + delayOperation s.globAckDel d }

/-- The device after `delayRes(d)` has slept. -/
def StreamDevice.delayRes (s : StreamDevice) (d : Duration) : StreamDevice :=
  { s with slept := s.slept + delayOperation s.globResDel d }

def StreamDevice.findStreamCommand (s : StreamDevice) (name : GoString) : Option streamCommand :=
  s.streamCmd.find? (fun c => c.Param = name)

def StreamDevice.makeResponse (lib : GoLib) (s : StreamDevice) (param : GoString) :
    Exec (StreamDevice × GoString) :=
  match s.findStreamCommand param with
  | none => .ret (s, [])
  | some p =>
    match s.param.get p.Param with
    | none => .panic
    | some cell =>
      let val := cell.Value
      let out := constructOutput lib p.resItems val
      if out.length = 0 then .ret (s, [])
      else .ret (s.delayRes p.resDelay, out ++ s.outTerminator)

def StreamDevice.makeAck (lib : GoLib) (s : StreamDevice) (param : GoString) (value : GoAny) :
    Exec (StreamDevice × GoString) :=
  match s.findStreamCommand param with
  | none => .ret (s, [])
  | some p =>
    let out := constructOutput lib p.ackItems value
    if out.length = 0 then .ret (s, [])
    else .ret (s.delayAck p.ackDelay, out ++ s.outTerminator)

def StreamDevice.parseTok (lib : GoLib) (s : StreamDevice) (tok : GoString) :
    Exec (StreamDevice × GoString) :=
  match s.parser tok with
  | none => .ret (s, s.Mismatch)
  | some cmd =>
    match cmd.Typ with
    | .CommandReq => s.makeResponse lib cmd.Parameter
    | .CommandSet =>
      match s.param.get cmd.Parameter with
      | none => .panic
      | some cell =>
        match SetValue lib cell cmd.Value with
        | (cell, some _) =>
          let s : StreamDevice := { s with param := s.param.set cmd.Parameter cell }
          .ret (s, s.Mismatch)
        | (cell, none) =>
          let s : StreamDevice := { s with param := s.param.set cmd.Parameter cell }
          let val := cell.Value
          s.makeAck lib cmd.Parameter val
    | .CommandOther => .ret (s, [])

/-- The default limit of a `bufio.Scanner` on the bytes it buffers. -/
def maxScanTokenSize : Nat := 64 * 1024

/-- Result of one `scanner.Scan()`. -/
inductive ScanResult
  | token (advance : Nat) (tok : GoString)
  | stop
  | tooLong
  deriving DecidableEq, Repr

/-- Model of one `Scan()` of a `bufio.Scanner` with the default buffer over a
`bytes.Reader` holding `rest`, for a split function that returns no error, a nil
token only with advance 0, and the same answer on a window and on the longer
windows that contain it (the device's splitter is such a function). The scanner
offers the buffered bytes, at most `maxScanTokenSize` of them, with
`atEOF = false`; when that gives no token it reads on, which fails with
`ErrTooLong` if the buffer is full at its largest size, and otherwise ends with
`io.EOF`, after which the bytes are offered with `atEOF = true`. -/
def Scan (split : GoString → Bool → Nat × Option GoString) (rest : GoString) : ScanResult :=
  let window := rest.take maxScanTokenSize
  match (if window = [] then (0, none) else split window false) with
  | (advance, some tok) => .token advance tok
  | (_, none) =>
    if maxScanTokenSize ≤ rest.length then .tooLong
    else
      match split rest true with
      | (advance, some tok) => .token advance tok
      | (_, none) => .stop

/-- The loop `for scanner.Scan()` of `Handle` with the bytes not yet consumed and
the reply buffer. A token shortens `rest` by its advance; with advance 0 the
scanner is in the same state again and the loop never ends, which is where the
calls run out. -/
def scanLoop (lib : GoLib) :
    Nat → StreamDevice → GoString → GoString → Exec (StreamDevice × GoString)
  | 0, _, _, _ => .diverge
  | fuel + 1, s, rest, buffer =>
    match Scan (splitter s.inTerminator) rest with
    | .stop => .ret (s, buffer)
    | .tooLong => .ret (s, [])
    | .token advance tok =>
      match s.parseTok lib tok with
      | .ret (s, reply) => scanLoop lib fuel s (rest.drop advance) (buffer ++ reply)
      | .panic => .panic
      | .diverge => .diverge

def StreamDevice.Handle (lib : GoLib) (s : StreamDevice) (cmd : GoString) :
    Exec (StreamDevice × GoString) :=
  scanLoop lib (cmd.length + 1) s cmd []

def StreamDevice.GetParameter (s : StreamDevice) (name : GoString) : Except DeviceError GoAny :=
  match s.param.get name with
  | none => .error (.parameterNotFound name)
  | some param => .ok param.Value

/-- The device after the call, and the error returned. -/
def StreamDevice.SetParameter (lib : GoLib) (s : StreamDevice) (name : GoString) (value : GoAny) :
    StreamDevice × Option DeviceError :=
  match s.param.get name with
  | none => (s, some (.parameterNotFound name))
  | some param =>
    match SetValue lib param value with
    | (param, err) => ({ s with param := s.param.set name param }, err.map DeviceError.parameter)

def StreamDevice.GetGlobalDelay (s : StreamDevice) (typ : GoString) : Except DeviceError Duration :=
  if typ = ascii "res" then .ok s.globResDel
  else if typ = ascii "ack" then .ok s.globAckDel
  else .error (.delayNotFound typ)

def StreamDevice.GetParamDelay (s : StreamDevice) (typ param : GoString) :
    Except DeviceError Duration :=
  match s.findStreamCommand param with
  | none => .error (.paramNotFound param)
  | some p =>
    if typ = ascii "res" then .ok (effectiveDelay s.globResDel p.resDelay)
    else if typ = ascii "ack" then .ok (effectiveDelay s.globResDel p.ackDelay)
    else .error (.delayNotFound typ)

def StreamDevice.GetMismatch (s : StreamDevice) : GoString := s.mismatch

/-- The device after the call, and the error returned. -/
def StreamDevice.SetMismatch (s : StreamDevice) (value : GoString) :
    StreamDevice × Option DeviceError :=
  if value.length > mismatchLimit then (s, some (.mismatchTooLong value))
  else ({ s with mismatch := value }, none)

/-- The reply bytes of an outcome that returns. -/
def Exec.reply : Exec (StreamDevice × GoString) → Option GoString
  | .ret (_, r) => some r
  | _ => none

/-- The device of an outcome that returns. -/
def Exec.device : Exec (StreamDevice × GoString) → Option StreamDevice
  | .ret (s, _) => some s
  | _ => none

/-- The replies of a list of tokens dispatched one after the other, each on the
device the previous one left, concatenated in that order. -/
def dispatchAll (lib : GoLib) : StreamDevice → List GoString → Exec (StreamDevice × GoString)
  | s, [] => .ret (s, [])
  | s, tok :: toks =>
    match s.parseTok lib tok with
    | .ret (s, reply) =>
      match dispatchAll lib s toks with
      | .ret (s, replies) => .ret (s, reply ++ replies)
      | .panic => .panic
      | .diverge => .diverge
    | .panic => .panic
    | .diverge => .diverge

/-- The chunk `t1 ++ T ++ ... ++ tn ++ T`. -/
def frame (term : GoString) : List GoString → GoString
  | [] => []
  | tok :: toks => tok ++ term ++ frame term toks

/-- An outcome with `buffer` put in front of its reply. -/
def Exec.prepend (buffer : GoString) :
    Exec (StreamDevice × GoString) → Exec (StreamDevice × GoString)
  | .ret (s, r) => .ret (s, buffer ++ r)
  | .panic => .panic
  | .diverge => .diverge

/-- The device after the call, and the error returned. -/
def StreamDevice.SetGlobalDelay (lib : GoLib) (s : StreamDevice) (typ val : GoString) :
    StreamDevice × Option DeviceError :=
  match lib.ParseDuration val with
  | none => (s, some (.durationSyntax val))
  | some del =>
    if typ = ascii "res" then ({ s with globResDel := del }, none)
    else if typ = ascii "ack" then ({ s with globAckDel := del }, none)
    else (s, some (.delayNotFound typ))

/-- The command list after an assignment through the pointer that
`findStreamCommand(name)` returns: the first command for `name` becomes `f` of
itself. -/
def updateCommand (f : streamCommand → streamCommand) (name : GoString) :
    List streamCommand → List streamCommand
  | [] => []
  | c :: cs => if c.Param = name then f c :: cs else c :: updateCommand f name cs

/-- The device after the call, and the error returned. -/
def StreamDevice.SetParamDelay (lib : GoLib) (s : StreamDevice) (typ param val : GoString) :
    StreamDevice × Option DeviceError :=
  match s.findStreamCommand param with
  | none => (s, some (.paramNotFound param))
  | some _ =>
    match lib.ParseDuration val with
    | none => (s, some (.durationSyntax val))
    | some del =>
      if typ = ascii "res" then
        ({ s with streamCmd := updateCommand (fun p => { p with resDelay := del }) param s.streamCmd },
          none)
      else if typ = ascii "ack" then
        ({ s with streamCmd := updateCommand (fun p => { p with ackDelay := del }) param s.streamCmd },
          none)
      else (s, some (.delayNotFound typ))

/-- The device after the call, and the error returned. The send of the `select`
goes through exactly when a reader is waiting; the reader then holds the
payload and waits no longer. -/
def StreamDevice.Trigger (lib : GoLib) (s : StreamDevice) (param : GoString) :
    Exec (StreamDevice × Option DeviceError) :=
  match s.findStreamCommand param with
  | none => .ret (s, some .ErrParamNotFound)
  | some p =>
    match s.param.get p.Param with
    | none => .panic
    | some cell =>
      let val := cell.Value
      let out := constructOutput lib p.resItems val
      if out.length = 0 then .ret (s, none)
      else
        let out := out ++ s.outTerminator
        if s.triggered.waiting = true then
          .ret ({ s with triggered := { waiting := false,
                                        received := s.triggered.received ++ [out] } }, none)
        else .ret (s, some .ErrNoClient)

/-- What one item contributes to the output for a value that is not nil, in the
words of the specification: its own text for a literal or whitespace item, the
value formatted under its specifier for a placeholder. -/
def renderItem (lib : GoLib) (value : GoAny) (i : Item) : GoString :=
  match i.typ with
  | .ItemCommand => i.val
  | .ItemWhiteSpace => i.val
  | .ItemNumberValuePlaceholder => lib.Sprintf i.val value
  | .ItemStringValuePlaceholder => lib.Sprintf i.val value
  | .ItemOther => []

/-- The calls that modify a device. -/
inductive Op
  | SetMismatch (value : GoString)
  | SetParameter (name : GoString) (value : GoAny)
  | SetGlobalDelay (typ val : GoString)
  | SetParamDelay (typ param val : GoString)
  | Handle (cmd : GoString)
  | Trigger (param : GoString)
  deriving DecidableEq, Repr

/-- The device after one call. -/
def StreamDevice.apply (lib : GoLib) (s : StreamDevice) : Op → Exec StreamDevice
  | .SetMismatch value => .ret (s.SetMismatch value).1
  | .SetParameter name value => .ret (s.SetParameter lib name value).1
  | .SetGlobalDelay typ val => .ret (s.SetGlobalDelay lib typ val).1
  | .SetParamDelay typ param val => .ret (s.SetParamDelay lib typ param val).1
  | .Handle cmd =>
    match s.Handle lib cmd with
    | .ret (s, _) => .ret s
    | .panic => .panic
    | .diverge => .diverge
  | .Trigger param =>
    match s.Trigger lib param with
    | .ret (s, _) => .ret s
    | .panic => .panic
    | .diverge => .diverge

/-- The device after a sequence of calls, each on the device the previous one
left. -/
def runOps (lib : GoLib) : StreamDevice → List Op → Exec StreamDevice
  | s, [] => .ret s
  | s, op :: ops =>
    match s.apply lib op with
    | .ret s => runOps lib s ops
    | .panic => .panic
    | .diverge => .diverge

/-- Of an outcome of `Trigger` that returns: the trigger channel and the
error. -/
def Exec.triggerResult :
    Exec (StreamDevice × Option DeviceError) → Option (TriggerChan × Option DeviceError)
  | .ret (s, err) => some (s.triggered, err)
  | _ => none

/-! ## Example devices -/

/-- An Int cell with the allowed values 1 and 2, holding 1. -/
def cell12 : ConcreteParameter :=
  { typ := Kind.Int, val := .int 1, opts := [.int 1, .int 2] }

/-- A parser for the examples: a request and two set commands for `p`. -/
def demoParser (tok : GoString) : Option Command :=
  if tok = ascii "P?" then some { Typ := .CommandReq, Parameter := ascii "p", Value := .nil }
  else if tok = ascii "P 2" then some { Typ := .CommandSet, Parameter := ascii "p", Value := .int 2 }
  else if tok = ascii "P 3" then some { Typ := .CommandSet, Parameter := ascii "p", Value := .int 3 }
  else none

def demoCommand : streamCommand :=
  { Param := ascii "p", Req := ascii "P?", Res := ascii "P", Set := ascii "P %d", Ack := ascii "OK",
    reqItems := [{ typ := .ItemCommand, val := ascii "P?" }],
    resItems := [{ typ := .ItemCommand, val := ascii "P" }],
    setItems := [{ typ := .ItemCommand, val := ascii "P" }, { typ := .ItemWhiteSpace, val := ascii " " },
      { typ := .ItemNumberValuePlaceholder, val := ascii "%d" }],
    ackItems := [{ typ := .ItemCommand, val := ascii "OK" }],
    resDelay := 0, ackDelay := 0 }

/-- A device with the one parameter `p`, line feed as both terminators, the
mismatch payload `ERR`, no response delay and an acknowledge delay of one
second. -/
def demoDevice : StreamDevice :=
  { param := [(ascii "p", cell12)],
    streamCmd := [demoCommand],
    outTerminator := ascii "\n",
    globResDel := 0,
    globAckDel := 1000000000,
    inTerminator := some (ascii "\n"),
    parser := demoParser,
    mismatch := ascii "ERR",
    slept := 0 }



/-- A library instance that reads two duration strings. -/
def demoLib : GoLib where
  parseFloat32 := fun _ => none
  parseFloat64 := fun _ => none
  Sprintf := fun format _ => format
  ParseDuration := fun val =>
    if val = ascii "2s" then some 2000000000
    else if val = ascii "500ms" then some 500000000
    else none

/-- The example device with an unset input terminator. -/
def unframedDevice : StreamDevice := { demoDevice with inTerminator := none }

/-- The example device with a reader waiting on the trigger channel. -/
def listenedDevice : StreamDevice :=
  { demoDevice with triggered := { waiting := true, received := [] } }

/-- A command for `p` with an empty response pattern. -/
def silentCommand : streamCommand := { demoCommand with Res := [], resItems := [] }

/-- A device whose command for `p` has an empty response pattern, with a reader
waiting on the trigger channel. -/
def silentDevice : StreamDevice :=
  { demoDevice with streamCmd := [silentCommand], triggered := { waiting := true, received := [] } }

/-- A configuration with a mismatch payload of 256 bytes. -/
def longMismatchFile : VDFile :=
  { Param := [(ascii "p", cell12)], StreamCmd := [demoCommand],
    InTerminator := some (ascii "\n"), OutTerminator := ascii "\n",
    ResDelay := 0, AckDelay := 0, Mismatch := List.replicate 256 69 }

/-- A configuration with the mismatch payload `ERR`. -/
def demoFile : VDFile := { longMismatchFile with Mismatch := ascii "ERR" }

/-! ## Lemmas on the parameter cell -/

theorem SetValue_error_unchanged (lib : GoLib) (p : ConcreteParameter) (val : GoAny)
    (e : ParamError) (h : (SetValue lib p val).2 = some e) : (SetValue lib p val).1 = p := by
  unfold SetValue at h ⊢
  cases hc : coerce lib p.typ val with
  | error err => simp
  | ok valT =>
    simp only [hc] at h ⊢
    split
    · rfl
    · rename_i hn
      simp [hn] at h

theorem SetValue_ok_val (lib : GoLib) (p : ConcreteParameter) (val : GoAny)
    (h : (SetValue lib p val).2 = none) :
    ∃ valT, coerce lib p.typ val = .ok valT ∧ (SetValue lib p val).1 = { p with val := valT } := by
  unfold SetValue at h ⊢
  cases hc : coerce lib p.typ val with
  | error err => simp [hc] at h
  | ok valT =>
    simp only [hc] at h ⊢
    split
    · rename_i hn
      simp [hn] at h
    · exact ⟨valT, rfl, rfl⟩

theorem coerce_native (lib : GoLib) (typ : Kind) (val : GoAny) (h : val.kind = some typ) :
    coerce lib typ val = .ok val := by
  simp [coerce, h]

theorem coerce_string (lib : GoLib) (typ : Kind) (s : GoString) (h : typ ≠ Kind.String) :
    coerce lib typ (.string s) = convertStringToVal lib typ s := by
  have : ¬ (GoAny.string s).kind = some typ := by
    intro hk
    apply h
    simp [GoAny.kind] at hk
    exact hk.symm
  simp [coerce, this]

theorem goEq_string_false (t : GoAny) (s : GoString) (h : t.kind ≠ some Kind.String) :
    goEq t (.string s) = false := by
  cases t <;> simp [goEq, GoAny.kind] at h ⊢

/-- On a cell of a kind other than String whose allowed values are not empty
and are of its kind, `SetValue` of a string always returns an error. -/
theorem SetValue_string_with_opts (lib : GoLib) (p : ConcreteParameter) (s : GoString)
    (hk : p.typ ≠ Kind.String) (hne : p.opts ≠ [])
    (hopts : ∀ o ∈ p.opts, o.kind = some p.typ) :
    (SetValue lib p (.string s)).2 ≠ none := by
  have hfound : isFound p.opts (.string s) = false := by
    unfold isFound
    rw [List.any_eq_false]
    intro t ht
    have hkt : t.kind ≠ some Kind.String := by
      rw [hopts t ht]
      intro he
      exact hk (Option.some.inj he)
    simp [goEq_string_false t s hkt]
  have hlen : p.opts.length > 0 := List.length_pos.mpr hne
  unfold SetValue
  cases hc : coerce lib p.typ (.string s) with
  | error err => simp
  | ok valT => simp [hfound, hlen]

/-! ## Claims on the parameter cell -/

/-- C1, evaluated on the code: the Int cell built by `New(1, "1|2")` has the
allowed values 1 and 2, the string `"2"` coerces to the allowed value 2, and
`SetValue("2")` nevertheless returns `ErrValNotAllowed` and leaves the cell as it
was, because the loop over `opts` compares with the string that was passed in. -/
theorem C1_SetValue_rejects_allowed_string :
    New plainLib (.int 1) (ascii "1|2") = some (.ok cell12)
    ∧ 0 < cell12.opts.length
    ∧ convertStringToVal plainLib cell12.typ (ascii "2") = .ok (.int 2)
    ∧ GoAny.int 2 ∈ cell12.opts
    ∧ SetValue plainLib cell12 (.string (ascii "2")) = (cell12, some .ErrValNotAllowed)
    ∧ SetValue plainLib cell12 (.int 2) = ({ cell12 with val := .int 2 }, none) := by
  decide

/-- C3: when `SetValue` returns an error, whichever it is, the cell is as it
was: `Value()` returns what it returned before and the allowed values are
unchanged. -/
theorem C3_SetValue_atomic_on_failure (lib : GoLib) (p : ConcreteParameter) (val : GoAny)
    (e : ParamError) (h : (SetValue lib p val).2 = some e) :
    (SetValue lib p val).1.Value = p.Value
    ∧ (SetValue lib p val).1.opts = p.opts
    ∧ (SetValue lib p val).1.Opts lib = p.Opts lib
    ∧ (SetValue lib p val).1 = p := by
  have hp := SetValue_error_unchanged lib p val e h
  rw [hp]
  exact ⟨rfl, rfl, rfl, rfl⟩

theorem C3_SetValue_atomic_on_failure_witness :
    (SetValue plainLib cell12 (.int 3)).2 = some .ErrValNotAllowed
    ∧ (SetValue plainLib cell12 (.int 3)).1.Value = GoAny.int 1
    ∧ (SetValue plainLib cell12 (.string (ascii "x"))).2 = some .ErrWrongIntVal
    ∧ (SetValue plainLib cell12 (.string (ascii "x"))).1.Value = GoAny.int 1
    ∧ (SetValue plainLib cell12 (.bool true)).2 = some .ErrWrongTypeVal
    ∧ (SetValue plainLib cell12 (.bool true)).1.Value = GoAny.int 1 :=
  ⟨by decide,
   (C3_SetValue_atomic_on_failure plainLib cell12 (.int 3) .ErrValNotAllowed (by decide)).1,
   by decide,
   (C3_SetValue_atomic_on_failure plainLib cell12 (.string (ascii "x")) .ErrWrongIntVal
     (by decide)).1,
   by decide,
   (C3_SetValue_atomic_on_failure plainLib cell12 (.bool true) .ErrWrongTypeVal (by decide)).1⟩

/-- C4: when `SetValue(x)` returns no error, `Value()` returns the committed
value: `x` itself when `x` is a native value of the kind of the cell; for a
string `x` the integer that `Atoi` or `ParseInt` reads from it on an Int, Int32
or Int64 cell, the float that `ParseFloat` reads on a float cell, and true for
`"true"`, false for `"false"` on a Bool cell. `String()` is then the `%v`
rendering of that value, and kind and allowed values are unchanged. -/
theorem C4_SetValue_round_trip (lib : GoLib) (p : ConcreteParameter) (x : GoAny)
    (h : (SetValue lib p x).2 = none) :
    (x.kind = some p.typ → (SetValue lib p x).1.Value = x)
    ∧ (∀ s, x = .string s → p.typ = Kind.Int →
        ∃ n, Atoi s = some n ∧ (SetValue lib p x).1.Value = .int n)
    ∧ (∀ s, x = .string s → p.typ = Kind.Int32 →
        ∃ n, ParseInt s 32 = some n ∧ (SetValue lib p x).1.Value = .int32 n)
    ∧ (∀ s, x = .string s → p.typ = Kind.Int64 →
        ∃ n, ParseInt s 64 = some n ∧ (SetValue lib p x).1.Value = .int64 n)
    ∧ (∀ s, x = .string s → p.typ = Kind.Float32 →
        ∃ f, lib.parseFloat32 s = some f ∧ (SetValue lib p x).1.Value = .float32 f)
    ∧ (∀ s, x = .string s → p.typ = Kind.Float64 →
        ∃ f, lib.parseFloat64 s = some f ∧ (SetValue lib p x).1.Value = .float64 f)
    ∧ (∀ s, x = .string s → p.typ = Kind.Bool →
        (s = ascii "true" ∧ (SetValue lib p x).1.Value = .bool true)
        ∨ (s = ascii "false" ∧ (SetValue lib p x).1.Value = .bool false))
    ∧ (SetValue lib p x).1.String lib = lib.Sprintf (ascii "%v") (SetValue lib p x).1.Value
    ∧ (SetValue lib p x).1.typ = p.typ
    ∧ (SetValue lib p x).1.opts = p.opts := by
  obtain ⟨valT, hc, hp⟩ := SetValue_ok_val lib p x h
  rw [hp]
  simp only [ConcreteParameter.Value, ConcreteParameter.String]
  refine ⟨?_, ?_, ?_, ?_, ?_, ?_, ?_, ?_, ?_, ?_⟩
  iterate 3 on_goal 8 => first | rfl | trivial
  · intro hk
    rw [coerce_native lib p.typ x hk] at hc
    cases hc
    rfl
  · intro s hx ht
    subst hx
    rw [coerce_string lib p.typ s (by rw [ht]; decide), ht] at hc
    simp only [convertStringToVal] at hc
    cases hA : Atoi s with
    | none => simp [hA] at hc
    | some n =>
      simp only [hA] at hc
      cases hc
      exact ⟨n, rfl, rfl⟩
  · intro s hx ht
    subst hx
    rw [coerce_string lib p.typ s (by rw [ht]; decide), ht] at hc
    simp only [convertStringToVal] at hc
    cases hA : ParseInt s 32 with
    | none => simp [hA] at hc
    | some n =>
      simp only [hA] at hc
      cases hc
      exact ⟨n, rfl, rfl⟩
  · intro s hx ht
    subst hx
    rw [coerce_string lib p.typ s (by rw [ht]; decide), ht] at hc
    simp only [convertStringToVal] at hc
    cases hA : ParseInt s 64 with
    | none => simp [hA] at hc
    | some n =>
      simp only [hA] at hc
      cases hc
      exact ⟨n, rfl, rfl⟩
  · intro s hx ht
    subst hx
    rw [coerce_string lib p.typ s (by rw [ht]; decide), ht] at hc
    simp only [convertStringToVal] at hc
    cases hA : lib.parseFloat32 s with
    | none => simp [hA] at hc
    | some n =>
      simp only [hA] at hc
      cases hc
      exact ⟨n, rfl, rfl⟩
  · intro s hx ht
    subst hx
    rw [coerce_string lib p.typ s (by rw [ht]; decide), ht] at hc
    simp only [convertStringToVal] at hc
    cases hA : lib.parseFloat64 s with
    | none => simp [hA] at hc
    | some n =>
      simp only [hA] at hc
      cases hc
      exact ⟨n, rfl, rfl⟩
  · intro s hx ht
    subst hx
    rw [coerce_string lib p.typ s (by rw [ht]; decide), ht] at hc
    simp only [convertStringToVal] at hc
    by_cases h1 : s = ascii "true"
    · simp only [h1, if_true] at hc
      cases hc
      exact Or.inl ⟨h1, rfl⟩
    · simp only [h1, if_false] at hc
      by_cases h2 : s = ascii "false"
      · simp only [h2, if_true] at hc
        cases hc
        exact Or.inr ⟨h2, rfl⟩
      · simp [h2] at hc

theorem C4_SetValue_round_trip_witness :
    (SetValue plainLib { typ := Kind.Int, val := .int 0, opts := [] } (.string (ascii "-42"))).2 = none
    ∧ ∃ n, Atoi (ascii "-42") = some n
        ∧ (SetValue plainLib { typ := Kind.Int, val := .int 0, opts := [] }
            (.string (ascii "-42"))).1.Value = .int n :=
  ⟨by decide,
   (C4_SetValue_round_trip plainLib { typ := Kind.Int, val := .int 0, opts := [] }
     (.string (ascii "-42")) (by decide)).2.1 (ascii "-42") rfl rfl⟩

/-! ## Lemmas on the device -/

theorem ParamMap.set_get_self (m : ParamMap) (name : GoString) (v : ConcreteParameter)
    (h : m.get name = some v) : m.set name v = m := by
  induction m with
  | nil => rfl
  | cons kv rest ih =>
    obtain ⟨k, w⟩ := kv
    by_cases hk : k = name
    · simp only [ParamMap.get, hk, if_true] at h
      cases h
      simp [ParamMap.set, hk]
    · simp only [ParamMap.get, hk, if_false] at h
      simp [ParamMap.set, hk, ih h]

theorem Mismatch_eq (s : StreamDevice) :
    s.Mismatch = if s.mismatch = [] then [] else s.mismatch ++ s.outTerminator := by
  unfold StreamDevice.Mismatch
  cases hm : s.mismatch <;> simp

/-! ## Claims on the device: mismatch and delays -/

/-- C2: when the parser classifies a token as a Set command for `p` with value
`v`, `p` is a parameter of the device and `p.SetValue(v)` fails, `parseTok`
returns exactly `Mismatch()`, which is the mismatch payload followed by the
output terminator, or empty when the payload is empty, and `GetParameter(p)`
returns afterwards what it returned before; the device as a whole is as it
was. -/
theorem C2_parseTok_failed_set (lib : GoLib) (s : StreamDevice) (tok p : GoString) (v : GoAny)
    (cell : ConcreteParameter) (e : ParamError)
    (hparse : s.parser tok = some { Typ := .CommandSet, Parameter := p, Value := v })
    (hcell : s.param.get p = some cell)
    (hfail : (SetValue lib cell v).2 = some e) :
    ∃ s', s.parseTok lib tok = .ret (s', s.Mismatch)
      ∧ s.Mismatch = (if s.mismatch = [] then [] else s.mismatch ++ s.outTerminator)
      ∧ s'.GetParameter p = s.GetParameter p
      ∧ s'.GetParameter p = .ok cell.Value
      ∧ s' = s := by
  refine ⟨s, ?_, Mismatch_eq s, rfl, ?_, rfl⟩
  · have hsame := SetValue_error_unchanged lib cell v e hfail
    unfold StreamDevice.parseTok
    simp only [hparse, hcell]
    have hpair : SetValue lib cell v = (cell, some e) := Prod.ext hsame hfail
    rw [hpair]
    simp only [ParamMap.set_get_self s.param p cell hcell]
  · simp [StreamDevice.GetParameter, hcell]

theorem C2_parseTok_failed_set_witness :
    demoDevice.parser (ascii "P 3") = some { Typ := .CommandSet, Parameter := ascii "p", Value := .int 3 }
    ∧ (SetValue plainLib cell12 (.int 3)).2 = some .ErrValNotAllowed
    ∧ ∃ s', demoDevice.parseTok plainLib (ascii "P 3") = .ret (s', demoDevice.Mismatch)
      ∧ demoDevice.Mismatch
          = (if demoDevice.mismatch = [] then [] else demoDevice.mismatch ++ demoDevice.outTerminator)
      ∧ s'.GetParameter (ascii "p") = demoDevice.GetParameter (ascii "p")
      ∧ s'.GetParameter (ascii "p") = .ok cell12.Value
      ∧ s' = demoDevice :=
  ⟨by decide, by decide,
   C2_parseTok_failed_set plainLib demoDevice (ascii "P 3") (ascii "p") (.int 3) cell12
     .ErrValNotAllowed (by decide) (by decide) (by decide)⟩

/-- C7, evaluated on the code: on a device with no global response delay and a
global acknowledge delay of one second, for a command without delays of its
own, `GetParamDelay("ack", p)` returns 0, while the effective acknowledge delay
is one second and `delayAck` sleeps for one second. `GetParamDelay("res", p)` is
the effective response delay. -/
theorem C7_GetParamDelay_ack_reads_response_delay :
    demoDevice.findStreamCommand (ascii "p") = some demoCommand
    ∧ demoDevice.GetParamDelay (ascii "ack") (ascii "p") = .ok 0
    ∧ effectiveDelay demoDevice.globAckDel demoCommand.ackDelay = 1000000000
    ∧ (demoDevice.delayAck demoCommand.ackDelay).slept = demoDevice.slept + 1000000000
    ∧ demoDevice.GetParamDelay (ascii "res") (ascii "p")
        = .ok (effectiveDelay demoDevice.globResDel demoCommand.resDelay) := by
  decide

/-- C8: `effectiveDelay(g, d)` is `d` when `d > 0`, otherwise `g` when `g > 0`,
otherwise 0; it is never negative, and it is 0 exactly when neither `d` nor `g`
is positive. -/
theorem C8_effectiveDelay (g d : Duration) :
    effectiveDelay g d = (if d > 0 then d else if g > 0 then g else 0)
    ∧ 0 ≤ effectiveDelay g d
    ∧ (effectiveDelay g d = 0 ↔ d ≤ 0 ∧ g ≤ 0) := by
  unfold effectiveDelay
  by_cases hd : d ≤ 0
  · by_cases hg : g ≤ 0
    · simp [hd, hg, not_lt.mpr hd, not_lt.mpr hg]
    · have hg' : 0 < g := not_le.mp hg
      simp only [hd, hg, if_true, if_false, not_lt.mpr hd, gt_iff_lt, hg']
      refine ⟨trivial, le_of_lt hg', ?_⟩
      constructor
      · intro h0
        exact absurd h0 (ne_of_gt hg')
      · intro h0
        exact False.elim h0.2
  · have hd' : 0 < d := not_le.mp hd
    simp only [hd, if_false, gt_iff_lt, hd', if_true]
    refine ⟨trivial, le_of_lt hd', ?_⟩
    constructor
    · intro h0
      exact absurd h0 (ne_of_gt hd')
    · intro h0
      exact False.elim h0.1

/-- C9: `SetMismatch(s)` returns an error exactly when `s` is longer than 255
bytes; after an error `GetMismatch()` returns what it returned before, after a
success it returns `s`. A string of 255 bytes is accepted and one of 256 bytes
is refused. -/
theorem C9_SetMismatch (s : StreamDevice) (value : GoString) (b : Byte) :
    ((s.SetMismatch value).2.isSome = true ↔ 255 < value.length)
    ∧ (s.SetMismatch value).1.GetMismatch
        = (if 255 < value.length then s.GetMismatch else value)
    ∧ (s.SetMismatch (List.replicate 255 b)).2 = none
    ∧ (s.SetMismatch (List.replicate 256 b)).2.isSome = true := by
  unfold StreamDevice.SetMismatch mismatchLimit
  refine ⟨?_, ?_, ?_, ?_⟩
  · by_cases h : value.length > 255 <;> simp [h]
  · by_cases h : value.length > 255 <;> simp [h, StreamDevice.GetMismatch]
  · simp only [List.length_replicate]
    rfl
  · simp only [List.length_replicate]
    rfl

/-- C10: `Mismatch()` is the mismatch payload followed by the output terminator
when the payload is not empty, and is empty when the payload is empty. -/
theorem C10_Mismatch (s : StreamDevice) :
    s.Mismatch = (if s.mismatch = [] then [] else s.mismatch ++ s.outTerminator)
    ∧ (s.Mismatch = [] ↔ s.mismatch = []) := by
  refine ⟨Mismatch_eq s, ?_⟩
  rw [Mismatch_eq]
  by_cases h : s.mismatch = [] <;> simp [h]

/-! ## Framing: lemmas on `Index`, `Scan` and the scan loop -/

theorem Index_nil_sep (data : GoString) : Index data [] = some 0 := by
  cases data <;> simp [Index]

theorem Index_cons (c : Byte) (rest T : GoString) :
    Index (c :: rest) T
      = if T.isPrefixOf (c :: rest) = true then some 0
        else (Index rest T).map (fun i => i + 1) := by
  rw [Index]

theorem Index_bound (T : GoString) :
    ∀ (data : GoString) (i : Nat), Index data T = some i → i + T.length ≤ data.length := by
  intro data
  induction data with
  | nil =>
    intro i h
    by_cases hT : T = []
    · simp [Index, hT] at h
      simp [hT, ← h]
    · simp [Index, hT] at h
  | cons c rest ih =>
    intro i h
    rw [Index_cons] at h
    by_cases hp : T.isPrefixOf (c :: rest) = true
    · rw [if_pos hp] at h
      cases h
      have := (List.isPrefixOf_iff_prefix.mp hp).length_le
      simpa using this
    · rw [if_neg hp] at h
      cases hr : Index rest T with
      | none => simp [hr] at h
      | some j =>
        rw [hr] at h
        simp only [Option.map_some', Option.some.injEq] at h
        have := ih j hr
        simp only [List.length_cons]
        omega

theorem Index_append (T b : GoString) :
    ∀ (a : GoString) (i : Nat), Index a T = some i → Index (a ++ b) T = some i := by
  intro a
  induction a with
  | nil =>
    intro i h
    by_cases hT : T = []
    · simp [Index, hT] at h
      subst hT
      rw [← h]
      exact Index_nil_sep _
    · simp [Index, hT] at h
  | cons c rest ih =>
    intro i h
    have hb := Index_bound T (c :: rest) i h
    rw [Index_cons] at h
    rw [List.cons_append, Index_cons]
    by_cases hp : T.isPrefixOf (c :: rest) = true
    · rw [if_pos hp] at h
      cases h
      have hpre : T <+: (c :: rest) ++ b :=
        (List.isPrefixOf_iff_prefix.mp hp).trans (List.prefix_append _ _)
      have hp2 : T.isPrefixOf (c :: (rest ++ b)) = true := by
        rw [List.isPrefixOf_iff_prefix]
        simpa using hpre
      rw [if_pos hp2]
    · rw [if_neg hp] at h
      cases hr : Index rest T with
      | none => simp [hr] at h
      | some j =>
        rw [hr] at h
        simp only [Option.map_some', Option.some.injEq] at h
        have hp2 : ¬ T.isPrefixOf (c :: (rest ++ b)) = true := by
          intro hq
          apply hp
          rw [List.isPrefixOf_iff_prefix] at hq ⊢
          have hle : T.length ≤ (c :: rest).length := by omega
          have hq' : T <+: (c :: rest) ++ b := by simpa using hq
          exact List.prefix_of_prefix_length_le hq' (List.prefix_append _ _) hle
        rw [if_neg hp2, ih j hr]
        simp [h]

theorem maxScanTokenSize_pos : 0 < maxScanTokenSize := by
  unfold maxScanTokenSize
  omega

theorem Scan_nil (term : Option GoString) : Scan (splitter term) [] = .stop := by
  have h0 : ¬ maxScanTokenSize ≤ 0 := Nat.not_le.mpr maxScanTokenSize_pos
  simp [Scan, splitter, h0]

theorem Scan_token (T t rest : GoString) (hne : T ≠ [])
    (hfirst : Index (t ++ T) T = some t.length)
    (hsize : t.length + T.length ≤ maxScanTokenSize) :
    Scan (splitter (some T)) (t ++ T ++ rest) = .token (t.length + T.length) t := by
  have hlen : (t ++ T).length ≤ maxScanTokenSize := by simpa using hsize
  have hwin : (t ++ T ++ rest).take maxScanTokenSize
      = (t ++ T) ++ rest.take (maxScanTokenSize - (t ++ T).length) := by
    rw [List.take_append_eq_append_take, List.take_of_length_le hlen]
  have hwne : (t ++ T) ++ rest.take (maxScanTokenSize - (t ++ T).length) ≠ [] := by
    cases T with
    | nil => exact absurd rfl hne
    | cons x xs => simp
  have hidx := Index_append T (rest.take (maxScanTokenSize - (t ++ T).length)) (t ++ T) _ hfirst
  unfold Scan
  simp only [hwin, hwne, if_false]
  simp only [splitter, Bool.false_and, hidx]
  simp

theorem Scan_final (T tail : GoString) (htail : tail ≠ []) (hno : Index tail T = none)
    (hlen : tail.length < maxScanTokenSize) :
    Scan (splitter (some T)) tail = .token tail.length tail := by
  have hwin : tail.take maxScanTokenSize = tail := List.take_of_length_le (le_of_lt hlen)
  have hnl : ¬ maxScanTokenSize ≤ tail.length := Nat.not_le.mpr hlen
  have hl0 : ¬ tail.length = 0 := by
    intro h0
    exact htail (List.length_eq_zero.mp h0)
  unfold Scan
  simp [hwin, htail, splitter, hno, hnl, hl0]

theorem Scan_tooLong (T rest : GoString) (hlen : maxScanTokenSize ≤ rest.length)
    (hno : Index (rest.take maxScanTokenSize) T = none) :
    Scan (splitter (some T)) rest = .tooLong := by
  unfold Scan
  by_cases hw : rest.take maxScanTokenSize = []
  · simp [hw, hlen]
  · simp [hw, splitter, hno, hlen]

theorem makeResponse_config (lib : GoLib) (s s' : StreamDevice) (param r : GoString)
    (h : s.makeResponse lib param = .ret (s', r)) :
    s'.inTerminator = s.inTerminator ∧ s'.parser = s.parser ∧ s'.streamCmd = s.streamCmd
    ∧ s'.outTerminator = s.outTerminator ∧ s'.mismatch = s.mismatch
    ∧ s'.globResDel = s.globResDel ∧ s'.globAckDel = s.globAckDel ∧ s'.param = s.param := by
  unfold StreamDevice.makeResponse at h
  split at h
  · cases h
    simp
  · split at h
    · cases h
    · dsimp only at h
      split at h
      · cases h
        simp
      · cases h
        simp [StreamDevice.delayRes]

theorem makeAck_config (lib : GoLib) (s s' : StreamDevice) (param r : GoString) (value : GoAny)
    (h : s.makeAck lib param value = .ret (s', r)) :
    s'.inTerminator = s.inTerminator ∧ s'.parser = s.parser ∧ s'.streamCmd = s.streamCmd
    ∧ s'.outTerminator = s.outTerminator ∧ s'.mismatch = s.mismatch
    ∧ s'.globResDel = s.globResDel ∧ s'.globAckDel = s.globAckDel ∧ s'.param = s.param := by
  unfold StreamDevice.makeAck at h
  split at h
  · cases h
    simp
  · dsimp only at h
    split at h
    · cases h
      simp
    · cases h
      simp [StreamDevice.delayAck]

theorem parseTok_config (lib : GoLib) (s s' : StreamDevice) (tok r : GoString)
    (h : s.parseTok lib tok = .ret (s', r)) :
    s'.inTerminator = s.inTerminator ∧ s'.parser = s.parser ∧ s'.streamCmd = s.streamCmd
    ∧ s'.outTerminator = s.outTerminator ∧ s'.mismatch = s.mismatch
    ∧ s'.globResDel = s.globResDel ∧ s'.globAckDel = s.globAckDel := by
  unfold StreamDevice.parseTok at h
  split at h
  · cases h
    simp
  · split at h
    · have := makeResponse_config lib s s' _ r h
      tauto
    · split at h
      · cases h
      · split at h
        · cases h
          simp
        · obtain ⟨h1, h2, h3, h4, h5, h6, h7, _⟩ := makeAck_config lib _ s' _ r _ h
          exact ⟨h1, h2, h3, h4, h5, h6, h7⟩
    · cases h
      simp

theorem Exec.prepend_nil (x : Exec (StreamDevice × GoString)) : x.prepend [] = x := by
  cases x with
  | ret a => obtain ⟨s, r⟩ := a; simp [Exec.prepend]
  | panic => rfl
  | diverge => rfl

theorem scanLoop_frame (lib : GoLib) (T tail : GoString) (hne : T ≠ [])
    (hno : Index tail T = none) (hlen : tail.length < maxScanTokenSize) :
    ∀ (toks : List GoString) (s : StreamDevice) (fuel : Nat) (buffer : GoString),
      s.inTerminator = some T →
      (∀ t ∈ toks, Index (t ++ T) T = some t.length) →
      (∀ t ∈ toks, t.length + T.length ≤ maxScanTokenSize) →
      (frame T toks ++ tail).length + 1 ≤ fuel →
      scanLoop lib fuel s (frame T toks ++ tail) buffer
        = (dispatchAll lib s (toks ++ (if tail = [] then [] else [tail]))).prepend buffer := by
  intro toks
  induction toks with
  | nil =>
    intro s fuel buffer hT _ _ hfuel
    simp only [frame, List.nil_append] at hfuel ⊢
    obtain ⟨f, rfl⟩ : ∃ f, fuel = f + 1 := ⟨fuel - 1, by omega⟩
    by_cases htail : tail = []
    · subst htail
      simp [scanLoop, Scan_nil, dispatchAll, Exec.prepend]
    · have hpos : 0 < tail.length := List.length_pos.mpr htail
      obtain ⟨f', rfl⟩ : ∃ f', f = f' + 1 := ⟨f - 1, by omega⟩
      simp only [htail, if_false, dispatchAll]
      rw [scanLoop, hT, Scan_final T tail htail hno hlen]
      cases hp : s.parseTok lib tail with
      | ret a =>
        obtain ⟨s', r⟩ := a
        simp [hp, scanLoop, Scan_nil, Exec.prepend]
      | panic => simp [hp, Exec.prepend]
      | diverge => simp [hp, Exec.prepend]
  | cons t toks ih =>
    intro s fuel buffer hT hfirst hsize hfuel
    have hTpos : 0 < T.length := List.length_pos.mpr hne
    have hft := hfirst t (List.mem_cons_self _ _)
    have hst := hsize t (List.mem_cons_self _ _)
    obtain ⟨f, rfl⟩ : ∃ f, fuel = f + 1 := ⟨fuel - 1, by omega⟩
    have hrest : frame T (t :: toks) ++ tail = t ++ T ++ (frame T toks ++ tail) := by
      simp [frame, List.append_assoc]
    rw [hrest, scanLoop, hT, Scan_token T t _ hne hft hst]
    simp only [List.cons_append, dispatchAll]
    cases hp : s.parseTok lib t with
    | ret a =>
      obtain ⟨s', r⟩ := a
      have hcfg := (parseTok_config lib s s' t r hp).1
      have hdrop : (t ++ T ++ (frame T toks ++ tail)).drop (t.length + T.length)
          = frame T toks ++ tail := by
        have : t.length + T.length = (t ++ T).length := by simp
        rw [this, List.drop_left']
        rfl
      have hfuel' : (frame T toks ++ tail).length + 1 ≤ f := by
        rw [hrest] at hfuel
        simp only [List.length_append] at hfuel ⊢
        omega
      simp only [hdrop]
      rw [ih s' f (buffer ++ r) (hcfg.trans hT)
        (fun u hu => hfirst u (List.mem_cons_of_mem _ hu))
        (fun u hu => hsize u (List.mem_cons_of_mem _ hu)) hfuel']
      cases hd : dispatchAll lib s' (toks ++ (if tail = [] then [] else [tail])) with
      | ret b =>
        obtain ⟨s'', rs⟩ := b
        simp [hd, Exec.prepend, List.append_assoc]
      | panic => simp [hd, Exec.prepend]
      | diverge => simp [hd, Exec.prepend]
    | panic => simp [hp, Exec.prepend]
    | diverge => simp [hp, Exec.prepend]

theorem Handle_tooLong (lib : GoLib) (s : StreamDevice) (T chunk : GoString)
    (hT : s.inTerminator = some T) (hlen : maxScanTokenSize ≤ chunk.length)
    (hno : Index (chunk.take maxScanTokenSize) T = none) :
    s.Handle lib chunk = .ret (s, []) := by
  unfold StreamDevice.Handle
  rw [scanLoop, hT, Scan_tooLong T chunk hlen hno]

theorem Index_replicate_none (a b : Byte) (hab : a ≠ b) :
    ∀ n : Nat, Index (List.replicate n a) [b] = none := by
  intro n
  induction n with
  | zero => simp [Index]
  | succ n ih =>
    have hp : ¬ List.isPrefixOf [b] (a :: List.replicate n a) = true := by
      simp [List.isPrefixOf, Ne.symm hab]
    rw [List.replicate_succ, Index_cons, if_neg hp, ih]
    rfl

theorem Index_replicate_append (a b : Byte) (hab : a ≠ b) :
    ∀ n : Nat, Index (List.replicate n a ++ [b]) [b] = some n := by
  intro n
  induction n with
  | zero => simp [Index, List.isPrefixOf]
  | succ n ih =>
    have hp : ¬ List.isPrefixOf [b] (a :: (List.replicate n a ++ [b])) = true := by
      simp [List.isPrefixOf, Ne.symm hab]
    rw [List.replicate_succ, List.cons_append, Index_cons, if_neg hp, ih]
    rfl

theorem Handle_replicate_tooLong (lib : GoLib) (s : StreamDevice) (a b : Byte)
    (rest : GoString) (hT : s.inTerminator = some [b]) (hab : a ≠ b) :
    s.Handle lib (List.replicate maxScanTokenSize a ++ rest) = .ret (s, []) := by
  have htake : (List.replicate maxScanTokenSize a ++ rest).take maxScanTokenSize
      = List.replicate maxScanTokenSize a :=
    List.take_left' (List.length_replicate maxScanTokenSize a)
  have hlen : maxScanTokenSize ≤ (List.replicate maxScanTokenSize a ++ rest).length := by
    rw [List.length_append, List.length_replicate]
    exact Nat.le_add_right _ _
  apply Handle_tooLong lib s [b] _ hT hlen
  rw [htake]
  exact Index_replicate_none a b hab _

theorem demoParser_long (tok : GoString) (h : 3 < tok.length) : demoParser tok = none := by
  have h1 : tok ≠ ascii "P?" := by
    intro he
    rw [he] at h
    exact absurd h (by decide)
  have h2 : tok ≠ ascii "P 2" := by
    intro he
    rw [he] at h
    exact absurd h (by decide)
  have h3 : tok ≠ ascii "P 3" := by
    intro he
    rw [he] at h
    exact absurd h (by decide)
  simp [demoParser, h1, h2, h3]

/-! ## Claims on framing -/

/-- C5, as amended: on a device with the non-empty input terminator `T`, for
tokens `t1 .. tn` such that the first occurrence of `T` in `ti ++ T` is at offset
`len(ti)` and `ti ++ T` is at most 65536 bytes long, `Handle` of
`t1 ++ T ++ ... ++ tn ++ T` is the concatenation of the `parseTok(ti)`, each
token dispatched on the parameter store the previous one left, in input order
(a panic of a `parseTok` is a panic of `Handle`); for no token at all the reply
is empty and the device is as it was. -/
theorem C5_Handle_framing_partition (lib : GoLib) (s : StreamDevice) (T : GoString)
    (toks : List GoString)
    (hT : s.inTerminator = some T) (hne : T ≠ [])
    (hfirst : ∀ t ∈ toks, Index (t ++ T) T = some t.length)
    (hsize : ∀ t ∈ toks, t.length + T.length ≤ maxScanTokenSize) :
    s.Handle lib (frame T toks) = dispatchAll lib s toks
    ∧ s.Handle lib (frame T []) = .ret (s, []) := by
  have hnil : Index ([] : GoString) T = none := by simp [Index, hne]
  have key : ∀ l : List GoString,
      (∀ t ∈ l, Index (t ++ T) T = some t.length) →
      (∀ t ∈ l, t.length + T.length ≤ maxScanTokenSize) →
      s.Handle lib (frame T l) = dispatchAll lib s l := by
    intro l h1 h2
    have h := scanLoop_frame lib T [] hne hnil maxScanTokenSize_pos l s
      ((frame T l).length + 1) [] hT h1 h2 (by simp)
    simp only [List.append_nil, if_true, Exec.prepend_nil] at h
    exact h
  refine ⟨key toks hfirst hsize, ?_⟩
  rw [key [] (by simp) (by simp)]
  rfl

theorem C5_Handle_framing_partition_witness :
    demoDevice.inTerminator = some (ascii "\n")
    ∧ (demoDevice.Handle plainLib (ascii "P?\nP 2\nP?\nX\n")).reply = some (ascii "P\nOK\nP\nERR\n")
    ∧ demoDevice.Handle plainLib
          (frame (ascii "\n") [ascii "P?", ascii "P 2", ascii "P?", ascii "X"])
        = dispatchAll plainLib demoDevice [ascii "P?", ascii "P 2", ascii "P?", ascii "X"] :=
  ⟨by decide, by decide,
   (C5_Handle_framing_partition plainLib demoDevice (ascii "\n")
     [ascii "P?", ascii "P 2", ascii "P?", ascii "X"]
     (by decide) (by decide) (by decide) (by decide)).1⟩

/-- C5 as stated fails: a token of 65536 bytes `A` followed by the terminator
satisfies the condition of the claim, its `parseTok` replies with the mismatch
payload, and `Handle` returns no bytes, because the scanner gives up with
`ErrTooLong`. -/
theorem C5_token_longer_than_scanner_buffer :
    demoDevice.inTerminator = some (ascii "\n")
    ∧ ascii "\n" ≠ []
    ∧ (∀ t ∈ [List.replicate maxScanTokenSize (65 : Byte)],
        Index (t ++ ascii "\n") (ascii "\n") = some t.length)
    ∧ (demoDevice.Handle plainLib
        (frame (ascii "\n") [List.replicate maxScanTokenSize (65 : Byte)])).reply = some []
    ∧ (dispatchAll plainLib demoDevice [List.replicate maxScanTokenSize (65 : Byte)]).reply
        = some (ascii "ERR\n")
    ∧ demoDevice.Handle plainLib (frame (ascii "\n") [List.replicate maxScanTokenSize (65 : Byte)])
        ≠ dispatchAll plainLib demoDevice [List.replicate maxScanTokenSize (65 : Byte)] := by
  have hnl : ascii "\n" = [(10 : Byte)] := by decide
  have hab : (65 : Byte) ≠ 10 := by decide
  have hH : (demoDevice.Handle plainLib
      (frame (ascii "\n") [List.replicate maxScanTokenSize (65 : Byte)])).reply = some [] := by
    have hchunk : frame (ascii "\n") [List.replicate maxScanTokenSize (65 : Byte)]
        = List.replicate maxScanTokenSize (65 : Byte) ++ (ascii "\n" ++ []) := by
      simp only [frame, List.append_assoc]
    rw [hchunk, Handle_replicate_tooLong plainLib demoDevice 65 10 (ascii "\n" ++ [])
      (by decide) hab]
    rfl
  have hD : (dispatchAll plainLib demoDevice [List.replicate maxScanTokenSize (65 : Byte)]).reply
      = some (ascii "ERR\n") := by
    have hlong : 3 < (List.replicate maxScanTokenSize (65 : Byte)).length := by
      rw [List.length_replicate]
      decide
    have hp : demoDevice.parser (List.replicate maxScanTokenSize (65 : Byte)) = none :=
      demoParser_long (List.replicate maxScanTokenSize (65 : Byte)) hlong
    simp only [dispatchAll, StreamDevice.parseTok, hp]
    decide
  refine ⟨by decide, by decide, ?_, hH, hD, ?_⟩
  · intro t ht
    rw [List.mem_singleton] at ht
    rw [ht, hnl, List.length_replicate]
    exact Index_replicate_append 65 10 hab _
  · intro heq
    rw [heq, hD] at hH
    exact absurd hH (by decide)

/-- C6, as amended: on a device with the non-empty input terminator `T`, the
bytes left after the last complete token, when there are any, fewer than 65536
and `T` does not occur in them, are dispatched to the parser as one more token
at the end of the chunk, after the complete tokens. Hence `Handle` of a
non-empty chunk shorter than 65536 bytes that contains no input terminator is
`parseTok` of the whole chunk. -/
theorem C6_Handle_trailing_bytes (lib : GoLib) (s : StreamDevice) (T : GoString)
    (toks : List GoString) (tail : GoString)
    (hT : s.inTerminator = some T) (hne : T ≠ [])
    (hfirst : ∀ t ∈ toks, Index (t ++ T) T = some t.length)
    (hsize : ∀ t ∈ toks, t.length + T.length ≤ maxScanTokenSize)
    (htail : tail ≠ []) (hno : Index tail T = none) (hlen : tail.length < maxScanTokenSize) :
    s.Handle lib (frame T toks ++ tail) = dispatchAll lib s (toks ++ [tail])
    ∧ s.Handle lib tail = dispatchAll lib s [tail]
    ∧ (s.Handle lib tail).reply = (s.parseTok lib tail).reply := by
  have key : ∀ l : List GoString,
      (∀ t ∈ l, Index (t ++ T) T = some t.length) →
      (∀ t ∈ l, t.length + T.length ≤ maxScanTokenSize) →
      s.Handle lib (frame T l ++ tail) = dispatchAll lib s (l ++ [tail]) := by
    intro l h1 h2
    have h := scanLoop_frame lib T tail hne hno hlen l s
      ((frame T l ++ tail).length + 1) [] hT h1 h2 (le_refl _)
    simp only [htail, if_false, Exec.prepend_nil] at h
    exact h
  have hone : s.Handle lib tail = dispatchAll lib s [tail] := by
    have := key [] (by simp) (by simp)
    simpa [frame] using this
  refine ⟨key toks hfirst hsize, hone, ?_⟩
  rw [hone]
  simp only [dispatchAll]
  cases hp : s.parseTok lib tail with
  | ret a =>
    obtain ⟨s', r⟩ := a
    simp [Exec.reply]
  | panic => rfl
  | diverge => rfl

theorem C6_Handle_trailing_bytes_witness :
    Index (ascii "P 2") (ascii "\n") = none
    ∧ demoDevice.Handle plainLib (frame (ascii "\n") [ascii "P?"] ++ ascii "P 2")
        = dispatchAll plainLib demoDevice ([ascii "P?"] ++ [ascii "P 2"])
    ∧ (demoDevice.Handle plainLib (ascii "P?\nP 2")).reply = some (ascii "P\nOK\n") :=
  ⟨by decide,
   (C6_Handle_trailing_bytes plainLib demoDevice (ascii "\n") [ascii "P?"] (ascii "P 2")
     (by decide) (by decide) (by decide) (by decide) (by decide) (by decide) (by decide)).1,
   by decide⟩

/-- C6 as stated fails: the chunk `P 2` is not empty and contains no input
terminator, and `Handle` dispatches it: the reply is the acknowledgement and
the parameter `p` changes from 1 to 2. The unterminated chunk `X` gets the
mismatch reply. -/
theorem C6_unterminated_chunk_is_dispatched :
    demoDevice.inTerminator = some (ascii "\n")
    ∧ Index (ascii "P 2") (ascii "\n") = none
    ∧ demoDevice.GetParameter (ascii "p") = .ok (.int 1)
    ∧ (demoDevice.Handle plainLib (ascii "P 2")).reply = some (ascii "OK\n")
    ∧ (demoDevice.Handle plainLib (ascii "P 2")).device.map (fun s => s.GetParameter (ascii "p"))
        = some (.ok (.int 2))
    ∧ Index (ascii "X") (ascii "\n") = none
    ∧ (demoDevice.Handle plainLib (ascii "X")).reply = some (ascii "ERR\n")
    ∧ (demoDevice.Handle plainLib (ascii "X")).reply ≠ some [] := by
  decide

/-! ## Claims on the options and on Bool cells -/

theorem mapM_error_of_mem {α β : Type} (f : α → Except ParamError β) (e : ParamError)
    (hf : ∀ a e', f a = .error e' → e' = e) :
    ∀ l : List α, (∃ a ∈ l, ∃ e', f a = .error e') → l.mapM f = .error e := by
  intro l
  induction l with
  | nil =>
    intro h
    obtain ⟨a, ha, _⟩ := h
    cases ha
  | cons x xs ih =>
    intro h
    rw [List.mapM_cons]
    cases hx : f x with
    | error e' =>
      rw [hf x e' hx]
      rfl
    | ok b =>
      have hxs : ∃ a ∈ xs, ∃ e', f a = .error e' := by
        obtain ⟨a, ha, e', hae⟩ := h
        rcases List.mem_cons.mp ha with rfl | hmem
        · rw [hx] at hae
          cases hae
        · exact ⟨a, hmem, e', hae⟩
      have := ih hxs
      simp only [bind, Except.bind, this]

/-- For an Int cell the options are parsed as the specification says: a segment
that `Atoi` refuses makes `buildOptions`, and with it `New`, fail with
`ErrWrongIntVal`. -/
theorem buildOptions_int_error (lib : GoLib) (opt seg : GoString) (hne : opt ≠ [])
    (hseg : seg ∈ Split 124 opt) (hbad : Atoi seg = none) (val : GoAny) :
    buildOptions lib Kind.Int opt = .error .ErrWrongIntVal
    ∧ newParameter lib Kind.Int val opt = .error .ErrWrongIntVal := by
  have hb : buildOptions lib Kind.Int opt = .error .ErrWrongIntVal := by
    unfold buildOptions
    simp only [hne, ne_eq, not_false_eq_true, if_true]
    apply mapM_error_of_mem
    · intro a e' h
      cases ha : Atoi a with
      | none =>
        simp only [ha] at h
        cases h
        rfl
      | some n =>
        simp only [ha] at h
        cases h
    · exact ⟨seg, hseg, .ErrWrongIntVal, by simp [hbad]⟩
  refine ⟨hb, ?_⟩
  unfold newParameter
  rw [hb]

/-- C11, evaluated on the code: for a Bool cell the segment `maybe`, which the
string conversion of a Bool cell refuses with `ErrWrongBoolVal`, is accepted as
an option and stands for false: `New(false, "maybe")` returns a cell with the
allowed values `[false]`, and `New(true, "true|yes")` one with `[true, false]`.
For an Int cell the segment `x` makes `New` fail with `ErrWrongIntVal`. -/
theorem C11_New_bool_options_never_fail :
    Split 124 (ascii "maybe") = [ascii "maybe"]
    ∧ convertStringToVal plainLib Kind.Bool (ascii "maybe") = .error .ErrWrongBoolVal
    ∧ New plainLib (.bool false) (ascii "maybe")
        = some (.ok { typ := Kind.Bool, val := .bool false, opts := [.bool false] })
    ∧ New plainLib (.bool true) (ascii "true|yes")
        = some (.ok { typ := Kind.Bool, val := .bool true, opts := [.bool true, .bool false] })
    ∧ New plainLib (.int 1) (ascii "1|x") = some (.error .ErrWrongIntVal) := by
  decide

/-- C12: on a Bool cell without allowed values, `SetValue` of a string succeeds
exactly for `"true"`, which sets the cell to true, and for `"false"`, which sets
it to false; every other string, `"True"`, `"FALSE"`, `"1"`, `"0"` and the empty
string among them, fails with `ErrWrongBoolVal` and leaves the cell as it was. -/
theorem C12_SetValue_bool_string (lib : GoLib) (p : ConcreteParameter) (s : GoString)
    (htyp : p.typ = Kind.Bool) (hopts : p.opts = []) :
    ((SetValue lib p (.string s)).2 = none ↔ (s = ascii "true" ∨ s = ascii "false"))
    ∧ SetValue lib p (.string (ascii "true")) = ({ p with val := .bool true }, none)
    ∧ SetValue lib p (.string (ascii "false")) = ({ p with val := .bool false }, none)
    ∧ (s ≠ ascii "true" → s ≠ ascii "false" →
        SetValue lib p (.string s) = (p, some .ErrWrongBoolVal))
    ∧ SetValue lib p (.string (ascii "True")) = (p, some .ErrWrongBoolVal)
    ∧ SetValue lib p (.string (ascii "FALSE")) = (p, some .ErrWrongBoolVal)
    ∧ SetValue lib p (.string (ascii "1")) = (p, some .ErrWrongBoolVal)
    ∧ SetValue lib p (.string (ascii "0")) = (p, some .ErrWrongBoolVal)
    ∧ SetValue lib p (.string []) = (p, some .ErrWrongBoolVal) := by
  have hk : p.typ ≠ Kind.String := by
    rw [htyp]
    decide
  have hset : ∀ t : GoString, SetValue lib p (.string t)
      = if t = ascii "true" then ({ p with val := .bool true }, none)
        else if t = ascii "false" then ({ p with val := .bool false }, none)
        else (p, some .ErrWrongBoolVal) := by
    intro t
    unfold SetValue
    rw [coerce_string lib p.typ t hk, htyp, hopts]
    simp only [convertStringToVal]
    by_cases h1 : t = ascii "true"
    · simp [h1]
    · by_cases h2 : t = ascii "false"
      · subst h2
        simp [h1]
      · simp [h1, h2]
  have hbad : ∀ t : GoString, t ≠ ascii "true" → t ≠ ascii "false" →
      SetValue lib p (.string t) = (p, some .ErrWrongBoolVal) := by
    intro t h1 h2
    rw [hset t, if_neg h1, if_neg h2]
  refine ⟨?_, ?_, ?_, hbad s, hbad _ (by decide) (by decide), hbad _ (by decide) (by decide),
    hbad _ (by decide) (by decide), hbad _ (by decide) (by decide),
    hbad _ (by decide) (by decide)⟩
  · rw [hset s]
    by_cases h1 : s = ascii "true"
    · simp [h1]
    · by_cases h2 : s = ascii "false"
      · subst h2
        simp [h1]
      · simp [h1, h2]
  · rw [hset, if_pos rfl]
  · rw [hset, if_neg (by decide), if_pos rfl]

theorem C12_SetValue_bool_string_witness :
    ((SetValue plainLib { typ := Kind.Bool, val := .bool false, opts := [] }
        (.string (ascii "true"))).2 = none ↔ (ascii "true" = ascii "true" ∨ ascii "true" = ascii "false"))
    ∧ (SetValue plainLib { typ := Kind.Bool, val := .bool false, opts := [] }
        (.string (ascii "true"))).1.Value = .bool true
    ∧ (SetValue plainLib { typ := Kind.Bool, val := .bool false, opts := [] }
        (.string (ascii "TRUE"))).2 = some .ErrWrongBoolVal :=
  ⟨(C12_SetValue_bool_string plainLib { typ := Kind.Bool, val := .bool false, opts := [] }
      (ascii "true") rfl rfl).1, by decide, by decide⟩

/-! ## Claims on `Trigger` and on the reply of a recognised token -/

theorem findStreamCommand_param (s : StreamDevice) (name : GoString) (c : streamCommand)
    (h : s.findStreamCommand name = some c) : c.Param = name := by
  unfold StreamDevice.findStreamCommand at h
  have := List.find?_some h
  simpa using this

theorem ParamMap.get_set_same (m : ParamMap) (name : GoString) (v w : ConcreteParameter)
    (h : m.get name = some v) : (m.set name w).get name = some w := by
  induction m with
  | nil => simp [ParamMap.get] at h
  | cons kv rest ih =>
    obtain ⟨k, u⟩ := kv
    by_cases hk : k = name
    · simp [ParamMap.set, ParamMap.get, hk]
    · simp only [ParamMap.get, hk, if_false] at h
      simp [ParamMap.set, ParamMap.get, hk, ih h]

theorem constructOutput_nil_items (lib : GoLib) (value : GoAny) :
    constructOutput lib [] value = [] := by
  unfold constructOutput
  split <;> rfl

/-- C13, as amended: for a parameter `p` that has a stream command and is in the
parameter map. When the output constructed from `resItems` and the current
value of `p` is not empty: with a reader waiting, `Trigger(p)` hands the reader
exactly that output followed by the output terminator and returns no error;
with no reader waiting it returns `ErrNoClient` and leaves the device, channel
and parameter store included, as it was. When the constructed output is empty,
`Trigger(p)` returns no error and sends nothing, whether or not a reader is
waiting: the device, channel included, is as it was. -/
theorem C13_Trigger (lib : GoLib) (s : StreamDevice) (name : GoString) (c : streamCommand)
    (cell : ConcreteParameter)
    (hcmd : s.findStreamCommand name = some c) (hcell : s.param.get name = some cell) :
    (constructOutput lib c.resItems cell.Value ≠ [] → s.triggered.waiting = true →
      s.Trigger lib name
        = .ret ({ s with triggered :=
                    { waiting := false,
                      received := s.triggered.received
                        ++ [constructOutput lib c.resItems cell.Value ++ s.outTerminator] } },
                none))
    ∧ (constructOutput lib c.resItems cell.Value ≠ [] → s.triggered.waiting = false →
        s.Trigger lib name = .ret (s, some .ErrNoClient))
    ∧ (constructOutput lib c.resItems cell.Value = [] →
        s.Trigger lib name = .ret (s, none)) := by
  have hp := findStreamCommand_param s name c hcmd
  refine ⟨?_, ?_, ?_⟩
  · intro hout hw
    have hlen : ¬ (constructOutput lib c.resItems cell.Value).length = 0 := by
      intro h0
      exact hout (List.length_eq_zero.mp h0)
    unfold StreamDevice.Trigger
    simp only [hcmd, hp, hcell, ConcreteParameter.Value] at hlen ⊢
    simp [hlen, hw]
  · intro hout hw
    have hlen : ¬ (constructOutput lib c.resItems cell.Value).length = 0 := by
      intro h0
      exact hout (List.length_eq_zero.mp h0)
    unfold StreamDevice.Trigger
    simp only [hcmd, hp, hcell, ConcreteParameter.Value] at hlen ⊢
    simp [hlen, hw]
  · intro hempty
    unfold StreamDevice.Trigger
    simp only [hcmd, hp, hcell, ConcreteParameter.Value] at hempty ⊢
    simp [hempty]

theorem C13_Trigger_witness :
    (listenedDevice.Trigger plainLib (ascii "p")).triggerResult
        = some ({ waiting := false, received := [ascii "P\n"] }, none)
    ∧ (demoDevice.Trigger plainLib (ascii "p")).triggerResult
        = some ({ waiting := false, received := [] }, some .ErrNoClient)
    ∧ listenedDevice.Trigger plainLib (ascii "p")
        = .ret ({ listenedDevice with triggered :=
                    { waiting := false,
                      received := listenedDevice.triggered.received
                        ++ [constructOutput plainLib demoCommand.resItems cell12.Value
                              ++ listenedDevice.outTerminator] } },
                none)
    ∧ demoDevice.Trigger plainLib (ascii "p") = .ret (demoDevice, some .ErrNoClient)
    ∧ silentDevice.Trigger plainLib (ascii "p") = .ret (silentDevice, none) :=
  ⟨by decide, by decide,
   (C13_Trigger plainLib listenedDevice (ascii "p") demoCommand cell12 (by decide)
     (by decide)).1 (by decide) (by decide),
   (C13_Trigger plainLib demoDevice (ascii "p") demoCommand cell12 (by decide)
     (by decide)).2.1 (by decide) (by decide),
   (C13_Trigger plainLib silentDevice (ascii "p") silentCommand cell12 (by decide)
     (by decide)).2.2 (by decide)⟩

/-- C13 as stated fails: the command of `silentDevice` for `p` has an empty
response pattern. With a reader waiting, `Trigger(p)` returns no error and the
reader receives nothing, not the output terminator; with no reader waiting it
returns no error either, not `ErrNoClient`. -/
theorem C13_empty_output_is_not_sent :
    silentDevice.findStreamCommand (ascii "p") = some silentCommand
    ∧ silentDevice.triggered.waiting = true
    ∧ constructOutput plainLib silentCommand.resItems cell12.Value ++ silentDevice.outTerminator
        = ascii "\n"
    ∧ (silentDevice.Trigger plainLib (ascii "p")).triggerResult
        = some ({ waiting := true, received := [] }, none)
    ∧ ({ silentDevice with triggered := { waiting := false, received := [] } }
          : StreamDevice).triggered.waiting = false
    ∧ (StreamDevice.Trigger plainLib
          { silentDevice with triggered := { waiting := false, received := [] } }
          (ascii "p")).triggerResult
        = some ({ waiting := false, received := [] }, none) := by
  decide

/-- C14: for a token that the parser recognises for a parameter `p` with a
stream command and a cell in the parameter map. A Req is answered with the
output constructed from `resItems` and the value of `p`, followed by the output
terminator, and leaves the parameters as they were. A Set whose `SetValue`
succeeds commits the new value and is answered with the output constructed from
`ackItems` and the committed value, followed by the output terminator. In both
cases an empty constructed output, as an empty item sequence gives, makes the
reply completely empty, and the Set has still committed. -/
theorem C14_reply_shape (lib : GoLib) (s : StreamDevice) (tok name : GoString) (v : GoAny)
    (c : streamCommand) (cell : ConcreteParameter)
    (hcmd : s.findStreamCommand name = some c) (hcell : s.param.get name = some cell) :
    (s.parser tok = some { Typ := .CommandReq, Parameter := name, Value := v } →
      ∃ s', s.parseTok lib tok
          = .ret (s', if constructOutput lib c.resItems cell.Value = [] then []
                      else constructOutput lib c.resItems cell.Value ++ s.outTerminator)
        ∧ s'.param = s.param)
    ∧ (s.parser tok = some { Typ := .CommandSet, Parameter := name, Value := v } →
        ∀ cell', SetValue lib cell v = (cell', none) →
          ∃ s', s.parseTok lib tok
              = .ret (s', if constructOutput lib c.ackItems cell'.Value = [] then []
                          else constructOutput lib c.ackItems cell'.Value ++ s.outTerminator)
            ∧ s'.GetParameter name = .ok cell'.Value)
    ∧ (∀ value, constructOutput lib [] value = []) := by
  have hp := findStreamCommand_param s name c hcmd
  refine ⟨?_, ?_, constructOutput_nil_items lib⟩
  · intro hparse
    unfold StreamDevice.parseTok
    simp only [hparse]
    unfold StreamDevice.makeResponse
    simp only [hcmd, hp, hcell]
    by_cases h0 : constructOutput lib c.resItems cell.Value = []
    · refine ⟨s, ?_, rfl⟩
      simp [h0]
    · have hlen : ¬ (constructOutput lib c.resItems cell.Value).length = 0 := by
        intro hl
        exact h0 (List.length_eq_zero.mp hl)
      refine ⟨s.delayRes c.resDelay, ?_, rfl⟩
      simp [h0, hlen]
  · intro hparse cell' hset
    have hget : ({ s with param := s.param.set name cell' } : StreamDevice).GetParameter name
        = .ok cell'.Value := by
      simp [StreamDevice.GetParameter, ParamMap.get_set_same s.param name cell cell' hcell]
    unfold StreamDevice.parseTok
    simp only [hparse, hcell, hset]
    unfold StreamDevice.makeAck
    have hcmd' : ({ s with param := s.param.set name cell' } : StreamDevice).findStreamCommand name
        = some c := hcmd
    simp only [hcmd']
    by_cases h0 : constructOutput lib c.ackItems cell'.Value = []
    · refine ⟨{ s with param := s.param.set name cell' }, ?_, hget⟩
      simp [h0]
    · have hlen : ¬ (constructOutput lib c.ackItems cell'.Value).length = 0 := by
        intro hl
        exact h0 (List.length_eq_zero.mp hl)
      refine ⟨({ s with param := s.param.set name cell' } : StreamDevice).delayAck c.ackDelay,
        ?_, hget⟩
      simp [h0, hlen]

theorem C14_reply_shape_witness :
    demoDevice.parser (ascii "P 2")
        = some { Typ := .CommandSet, Parameter := ascii "p", Value := .int 2 }
    ∧ SetValue plainLib cell12 (.int 2) = ({ cell12 with val := .int 2 }, none)
    ∧ (demoDevice.parseTok plainLib (ascii "P 2")).reply = some (ascii "OK\n")
    ∧ (demoDevice.parseTok plainLib (ascii "P?")).reply = some (ascii "P\n")
    ∧ ∃ s', demoDevice.parseTok plainLib (ascii "P 2")
          = .ret (s', if constructOutput plainLib demoCommand.ackItems
                          ({ cell12 with val := .int 2 } : ConcreteParameter).Value = [] then []
                      else constructOutput plainLib demoCommand.ackItems
                          ({ cell12 with val := .int 2 } : ConcreteParameter).Value
                        ++ demoDevice.outTerminator)
        ∧ s'.GetParameter (ascii "p")
            = .ok ({ cell12 with val := .int 2 } : ConcreteParameter).Value :=
  ⟨by decide, by decide, by decide, by decide,
   (C14_reply_shape plainLib demoDevice (ascii "P 2") (ascii "p") (.int 2) demoCommand cell12
     (by decide) (by decide)).2.1 (by decide) { cell12 with val := .int 2 } (by decide)⟩

/-! ## Claims on the command patterns, the unset terminator and the global delays -/

theorem foldl_append_filter {α β : Type} (skip : α → Bool) (g : α → β) :
    ∀ (l : List α) (acc : List β),
      l.foldl (fun acc a => if skip a = true then acc else acc ++ [g a]) acc
        = acc ++ (l.filter (fun a => !skip a)).map g := by
  intro l
  induction l with
  | nil =>
    intro acc
    simp
  | cons x xs ih =>
    intro acc
    rw [List.foldl_cons, ih]
    by_cases hx : skip x = true
    · simp [hx]
    · simp [hx, List.append_assoc]

/-- C15: `buildCommandPatterns` returns one Req pattern for each command with
non-empty `reqItems`, in declared order, followed by one Set pattern for each
command with non-empty `setItems`, in declared order; each pattern carries the
`Param` and the item sequence of its command, no pattern has an empty item
sequence, and every Req pattern stands before every Set pattern. -/
theorem C15_buildCommandPatterns (scmd : List streamCommand) :
    buildCommandPatterns scmd
      = (scmd.filter (fun cmd => !decide (cmd.reqItems.length = 0))).map (fun cmd =>
          ({ Items := cmd.reqItems, Typ := .CommandReq, Parameter := cmd.Param } : CommandPattern))
        ++ (scmd.filter (fun cmd => !decide (cmd.setItems.length = 0))).map (fun cmd =>
          ({ Items := cmd.setItems, Typ := .CommandSet, Parameter := cmd.Param } : CommandPattern))
    ∧ (∀ pat ∈ buildCommandPatterns scmd, pat.Items ≠ [])
    ∧ (∃ reqs sets, buildCommandPatterns scmd = reqs ++ sets
        ∧ (∀ pat ∈ reqs, pat.Typ = .CommandReq ∧ ∃ cmd ∈ scmd,
            pat.Items = cmd.reqItems ∧ pat.Parameter = cmd.Param)
        ∧ (∀ pat ∈ sets, pat.Typ = .CommandSet ∧ ∃ cmd ∈ scmd,
            pat.Items = cmd.setItems ∧ pat.Parameter = cmd.Param)) := by
  have heq : buildCommandPatterns scmd
      = (scmd.filter (fun cmd => !decide (cmd.reqItems.length = 0))).map (fun cmd =>
          ({ Items := cmd.reqItems, Typ := .CommandReq, Parameter := cmd.Param } : CommandPattern))
        ++ (scmd.filter (fun cmd => !decide (cmd.setItems.length = 0))).map (fun cmd =>
          ({ Items := cmd.setItems, Typ := .CommandSet, Parameter := cmd.Param } : CommandPattern)) := by
    unfold buildCommandPatterns
    have h1 := foldl_append_filter (fun cmd : streamCommand => decide (cmd.reqItems.length = 0))
      (fun cmd => ({ Items := cmd.reqItems, Typ := .CommandReq, Parameter := cmd.Param }
        : CommandPattern)) scmd []
    simp only [decide_eq_true_eq, List.nil_append] at h1
    have h2 := foldl_append_filter (fun cmd : streamCommand => decide (cmd.setItems.length = 0))
      (fun cmd => ({ Items := cmd.setItems, Typ := .CommandSet, Parameter := cmd.Param }
        : CommandPattern)) scmd
      ((scmd.filter (fun cmd => !decide (cmd.reqItems.length = 0))).map (fun cmd =>
          ({ Items := cmd.reqItems, Typ := .CommandReq, Parameter := cmd.Param } : CommandPattern)))
    simp only [decide_eq_true_eq] at h2
    simp only [h1, h2]
  refine ⟨heq, ?_, ?_⟩
  · intro pat hpat
    rw [heq] at hpat
    rcases List.mem_append.mp hpat with h | h
    · obtain ⟨cmd, hc, rfl⟩ := List.mem_map.mp h
      have hne := (List.mem_filter.mp hc).2
      intro h0
      simp only [Bool.not_eq_true', decide_eq_false_iff_not, List.length_eq_zero] at hne
      exact hne h0
    · obtain ⟨cmd, hc, rfl⟩ := List.mem_map.mp h
      have hne := (List.mem_filter.mp hc).2
      intro h0
      simp only [Bool.not_eq_true', decide_eq_false_iff_not, List.length_eq_zero] at hne
      exact hne h0
  · refine ⟨_, _, heq, ?_, ?_⟩
    · intro pat h
      obtain ⟨cmd, hc, rfl⟩ := List.mem_map.mp h
      exact ⟨rfl, cmd, (List.mem_filter.mp hc).1, rfl, rfl⟩
    · intro pat h
      obtain ⟨cmd, hc, rfl⟩ := List.mem_map.mp h
      exact ⟨rfl, cmd, (List.mem_filter.mp hc).1, rfl, rfl⟩

theorem Scan_unset (rest : GoString) :
    Scan (splitter none) rest = .stop ∨ Scan (splitter none) rest = .tooLong := by
  unfold Scan
  by_cases hl : maxScanTokenSize ≤ rest.length
  · right
    by_cases hw : List.take maxScanTokenSize rest = [] <;> simp [hw, hl, splitter]
  · left
    by_cases hw : List.take maxScanTokenSize rest = [] <;> simp [hw, hl, splitter]

/-- C16: on a device whose input terminator is unset, `Handle` of any chunk
returns empty bytes and leaves the device, its parameters included, as it was;
the scanner never produces a token, so nothing reaches the parser. -/
theorem C16_Handle_unset_terminator (lib : GoLib) (s : StreamDevice) (chunk : GoString)
    (h : s.inTerminator = none) :
    s.Handle lib chunk = .ret (s, [])
    ∧ (∀ rest advance tok, Scan (splitter s.inTerminator) rest ≠ .token advance tok) := by
  constructor
  · unfold StreamDevice.Handle
    rw [scanLoop, h]
    rcases Scan_unset chunk with h1 | h1 <;> rw [h1]
  · intro rest advance tok
    rw [h]
    rcases Scan_unset rest with h1 | h1 <;> rw [h1] <;> intro h2 <;> cases h2

theorem C16_Handle_unset_terminator_witness :
    unframedDevice.inTerminator = none
    ∧ (unframedDevice.Handle plainLib (ascii "P 2\nP?\n")).reply = some []
    ∧ unframedDevice.Handle plainLib (ascii "P 2\nP?\n") = .ret (unframedDevice, []) :=
  ⟨by decide, by decide,
   (C16_Handle_unset_terminator plainLib unframedDevice (ascii "P 2\nP?\n") (by decide)).1⟩

/-- C17: when the duration string `val` parses to `D`, `SetGlobalDelay("res", val)`
succeeds, `GetGlobalDelay("res")` then returns `D`, and the global acknowledge
delay, the commands with their delays and the mismatch payload are as before;
the same holds for `"ack"` with the roles of the two global delays exchanged.
For a `typ` other than `"res"` and `"ack"`, `GetGlobalDelay` returns an error, and
`SetGlobalDelay` returns an error for every duration string and leaves the
device as it was. -/
theorem C17_global_delay (lib : GoLib) (s : StreamDevice) (val val' typ : GoString) (D : Duration)
    (hparse : lib.ParseDuration val = some D)
    (hres : typ ≠ ascii "res") (hack : typ ≠ ascii "ack") :
    ((s.SetGlobalDelay lib (ascii "res") val).2 = none
      ∧ (s.SetGlobalDelay lib (ascii "res") val).1.GetGlobalDelay (ascii "res") = .ok D
      ∧ (s.SetGlobalDelay lib (ascii "res") val).1.GetGlobalDelay (ascii "ack")
          = s.GetGlobalDelay (ascii "ack")
      ∧ (s.SetGlobalDelay lib (ascii "res") val).1.globAckDel = s.globAckDel
      ∧ (s.SetGlobalDelay lib (ascii "res") val).1.streamCmd = s.streamCmd
      ∧ (s.SetGlobalDelay lib (ascii "res") val).1.GetMismatch = s.GetMismatch)
    ∧ ((s.SetGlobalDelay lib (ascii "ack") val).2 = none
      ∧ (s.SetGlobalDelay lib (ascii "ack") val).1.GetGlobalDelay (ascii "ack") = .ok D
      ∧ (s.SetGlobalDelay lib (ascii "ack") val).1.GetGlobalDelay (ascii "res")
          = s.GetGlobalDelay (ascii "res")
      ∧ (s.SetGlobalDelay lib (ascii "ack") val).1.globResDel = s.globResDel
      ∧ (s.SetGlobalDelay lib (ascii "ack") val).1.streamCmd = s.streamCmd
      ∧ (s.SetGlobalDelay lib (ascii "ack") val).1.GetMismatch = s.GetMismatch)
    ∧ (s.GetGlobalDelay typ = .error (.delayNotFound typ)
      ∧ (s.SetGlobalDelay lib typ val').2 ≠ none
      ∧ (s.SetGlobalDelay lib typ val').1 = s) := by
  have hne : ascii "ack" ≠ ascii "res" := by decide
  refine ⟨?_, ?_, ?_⟩
  · simp [StreamDevice.SetGlobalDelay, hparse, StreamDevice.GetGlobalDelay,
      StreamDevice.GetMismatch, hne]
  · simp [StreamDevice.SetGlobalDelay, hparse, StreamDevice.GetGlobalDelay,
      StreamDevice.GetMismatch, hne]
  · refine ⟨by simp [StreamDevice.GetGlobalDelay, hres, hack], ?_, ?_⟩
    · unfold StreamDevice.SetGlobalDelay
      cases lib.ParseDuration val' <;> simp [hres, hack]
    · unfold StreamDevice.SetGlobalDelay
      cases lib.ParseDuration val' <;> simp [hres, hack]

theorem C17_global_delay_witness :
    demoLib.ParseDuration (ascii "2s") = some 2000000000
    ∧ (demoDevice.SetGlobalDelay demoLib (ascii "res") (ascii "2s")).2 = none
    ∧ (demoDevice.SetGlobalDelay demoLib (ascii "res") (ascii "2s")).1.GetGlobalDelay (ascii "res")
        = .ok 2000000000
    ∧ (demoDevice.SetGlobalDelay demoLib (ascii "sleep") (ascii "500ms")).2 ≠ none :=
  ⟨by decide,
   (C17_global_delay demoLib demoDevice (ascii "2s") (ascii "500ms") (ascii "sleep") 2000000000
     (by decide) (by decide) (by decide)).1.1,
   (C17_global_delay demoLib demoDevice (ascii "2s") (ascii "500ms") (ascii "sleep") 2000000000
     (by decide) (by decide) (by decide)).1.2.1,
   (C17_global_delay demoLib demoDevice (ascii "2s") (ascii "500ms") (ascii "sleep") 2000000000
     (by decide) (by decide) (by decide)).2.2.2.1⟩

/-! ## Claims on the mismatch bound and on the output constructor -/

theorem scanLoop_mismatch (lib : GoLib) :
    ∀ (fuel : Nat) (s : StreamDevice) (rest buffer : GoString) (s' : StreamDevice) (r : GoString),
      scanLoop lib fuel s rest buffer = .ret (s', r) → s'.mismatch = s.mismatch := by
  intro fuel
  induction fuel with
  | zero =>
    intro s rest buffer s' r h
    simp [scanLoop] at h
  | succ f ih =>
    intro s rest buffer s' r h
    rw [scanLoop] at h
    cases hscan : Scan (splitter s.inTerminator) rest with
    | stop =>
      simp only [hscan] at h
      cases h
      rfl
    | tooLong =>
      simp only [hscan] at h
      cases h
      rfl
    | token advance tok =>
      simp only [hscan] at h
      cases hp : s.parseTok lib tok with
      | ret a =>
        obtain ⟨s1, reply⟩ := a
        simp only [hp] at h
        have h1 := ih s1 _ _ s' r h
        have h2 := (parseTok_config lib s s1 tok reply hp).2.2.2.2.1
        exact h1.trans h2
      | panic => simp [hp] at h
      | diverge => simp [hp] at h

theorem apply_mismatch_bound (lib : GoLib) (s s' : StreamDevice) (op : Op)
    (hs : s.mismatch.length ≤ 255) (h : s.apply lib op = .ret s') :
    s'.mismatch.length ≤ 255 := by
  cases op with
  | SetMismatch value =>
    simp only [StreamDevice.apply, Exec.ret.injEq] at h
    subst h
    unfold StreamDevice.SetMismatch mismatchLimit
    by_cases hv : value.length > 255
    · simpa [hv] using hs
    · simp only [hv, if_false]
      exact Nat.le_of_not_lt hv
  | SetParameter name value =>
    simp only [StreamDevice.apply, Exec.ret.injEq] at h
    subst h
    unfold StreamDevice.SetParameter
    cases hg : s.param.get name with
    | none => simpa using hs
    | some param => simpa using hs
  | SetGlobalDelay typ val =>
    simp only [StreamDevice.apply, Exec.ret.injEq] at h
    subst h
    unfold StreamDevice.SetGlobalDelay
    cases lib.ParseDuration val with
    | none => simpa using hs
    | some del =>
      by_cases h1 : typ = ascii "res"
      · simpa [h1] using hs
      · by_cases h2 : typ = ascii "ack"
        · simpa [h1, h2] using hs
        · simpa [h1, h2] using hs
  | SetParamDelay typ param val =>
    simp only [StreamDevice.apply, Exec.ret.injEq] at h
    subst h
    unfold StreamDevice.SetParamDelay
    cases s.findStreamCommand param with
    | none => simpa using hs
    | some c =>
      cases lib.ParseDuration val with
      | none => simpa using hs
      | some del =>
        by_cases h1 : typ = ascii "res"
        · simpa [h1] using hs
        · by_cases h2 : typ = ascii "ack"
          · simpa [h1, h2] using hs
          · simpa [h1, h2] using hs
  | Handle cmd =>
    simp only [StreamDevice.apply] at h
    cases hh : s.Handle lib cmd with
    | ret a =>
      obtain ⟨s1, r⟩ := a
      simp only [hh, Exec.ret.injEq] at h
      subst h
      unfold StreamDevice.Handle at hh
      rw [scanLoop_mismatch lib _ s cmd [] s1 r hh]
      exact hs
    | panic => simp [hh] at h
    | diverge => simp [hh] at h
  | Trigger param =>
    simp only [StreamDevice.apply] at h
    cases ht : s.Trigger lib param with
    | ret a =>
      obtain ⟨s1, e⟩ := a
      simp only [ht, Exec.ret.injEq] at h
      subst h
      unfold StreamDevice.Trigger at ht
      split at ht
      · cases ht
        exact hs
      · split at ht
        · cases ht
        · dsimp only at ht
          split at ht
          · cases ht
            exact hs
          · split at ht
            · cases ht
              exact hs
            · cases ht
              exact hs
    | panic => simp [ht] at h
    | diverge => simp [ht] at h

theorem runOps_mismatch_bound (lib : GoLib) :
    ∀ (ops : List Op) (s s' : StreamDevice), s.mismatch.length ≤ 255 →
      runOps lib s ops = .ret s' → s'.mismatch.length ≤ 255 := by
  intro ops
  induction ops with
  | nil =>
    intro s s' hs h
    simp only [runOps, Exec.ret.injEq] at h
    subst h
    exact hs
  | cons op ops ih =>
    intro s s' hs h
    rw [runOps] at h
    cases ha : s.apply lib op with
    | ret s1 =>
      simp only [ha] at h
      exact ih s1 s' (apply_mismatch_bound lib s s1 op hs ha) h
    | panic => simp [ha] at h
    | diverge => simp [ha] at h

/-- C18, as amended: for every device that `NewDevice` builds from a `VDFile`
whose mismatch payload is at most 255 bytes long, after any sequence of
`SetMismatch`, `SetParameter`, `SetGlobalDelay`, `SetParamDelay`, `Handle` and
`Trigger` calls `GetMismatch()` is at most 255 bytes long. -/
theorem C18_mismatch_bound (lib : GoLib)
    (parserNew : List CommandPattern → GoString → Option Command) (vdfile : VDFile)
    (ops : List Op) (s' : StreamDevice)
    (hvd : vdfile.Mismatch.length ≤ 255)
    (hrun : runOps lib (NewDevice parserNew vdfile) ops = .ret s') :
    s'.GetMismatch.length ≤ 255 :=
  runOps_mismatch_bound lib ops (NewDevice parserNew vdfile) s' hvd hrun

theorem C18_mismatch_bound_witness :
    demoFile.Mismatch.length ≤ 255
    ∧ ∃ s', runOps demoLib (NewDevice (fun _ => demoParser) demoFile)
          [.SetMismatch (ascii "a longer mismatch reply"), .Handle (ascii "P 2\nX\n"),
           .SetMismatch (ascii "NO"), .SetGlobalDelay (ascii "res") (ascii "2s"),
           .SetParamDelay (ascii "ack") (ascii "p") (ascii "500ms"),
           .SetParameter (ascii "p") (.string (ascii "1")), .Trigger (ascii "p")] = .ret s'
        ∧ s'.GetMismatch.length ≤ 255 :=
  ⟨by decide, _, rfl,
   C18_mismatch_bound demoLib (fun _ => demoParser) demoFile
     [.SetMismatch (ascii "a longer mismatch reply"), .Handle (ascii "P 2\nX\n"),
      .SetMismatch (ascii "NO"), .SetGlobalDelay (ascii "res") (ascii "2s"),
      .SetParamDelay (ascii "ack") (ascii "p") (ascii "500ms"),
      .SetParameter (ascii "p") (.string (ascii "1")), .Trigger (ascii "p")] _ (by decide) rfl⟩

/-- C18 as stated fails: `NewDevice` takes the mismatch payload of the `VDFile`
as it is, so a configuration with a payload of 256 bytes gives a device whose
`GetMismatch()` is 256 bytes long before any call. -/
theorem C18_NewDevice_keeps_long_mismatch :
    longMismatchFile.Mismatch.length = 256
    ∧ runOps plainLib (NewDevice (fun _ => demoParser) longMismatchFile) []
        = .ret (NewDevice (fun _ => demoParser) longMismatchFile)
    ∧ (NewDevice (fun _ => demoParser) longMismatchFile).GetMismatch.length = 256
    ∧ ¬ (NewDevice (fun _ => demoParser) longMismatchFile).GetMismatch.length ≤ 255 := by
  have hlen : (List.replicate 256 (69 : Byte)).length = 256 := List.length_replicate _ _
  refine ⟨hlen, rfl, hlen, ?_⟩
  show ¬ (List.replicate 256 (69 : Byte)).length ≤ 255
  rw [hlen]
  decide

theorem constructOutput_foldl (lib : GoLib) (value : GoAny) :
    ∀ (items : List Item) (acc : GoString),
      items.foldl (fun out i =>
        match i.typ with
        | .ItemCommand => out ++ i.val
        | .ItemWhiteSpace => out ++ i.val
        | .ItemNumberValuePlaceholder => out ++ lib.Sprintf i.val value
        | .ItemStringValuePlaceholder => out ++ lib.Sprintf i.val value
        | .ItemOther => out) acc
      = acc ++ (items.map (renderItem lib value)).flatten := by
  intro items
  induction items with
  | nil =>
    intro acc
    simp
  | cons i rest ih =>
    intro acc
    rw [List.foldl_cons, ih, List.map_cons, List.flatten_cons, ← List.append_assoc]
    congr 1
    unfold renderItem
    cases i.typ <;> simp

theorem renderItem_literal (lib : GoLib) (value : GoAny) (i : Item)
    (h : i.typ = .ItemCommand ∨ i.typ = .ItemWhiteSpace) : renderItem lib value i = i.val := by
  unfold renderItem
  rcases h with h | h <;> rw [h]

/-- C19: for a value that is not nil, `constructOutput` is the concatenation,
in the order of the items, of the text of each literal and whitespace item and
of the value formatted under the specifier of each placeholder item; for a
sequence `lits` of literal and whitespace items only it is the concatenation of
their texts, the same for every such value. For a nil value the output is
empty whatever the items are. -/
theorem C19_constructOutput (lib : GoLib) (items lits : List Item) (value value' : GoAny)
    (hv : value ≠ .nil) (ho : value' ≠ .nil)
    (hlits : ∀ i ∈ lits, i.typ = .ItemCommand ∨ i.typ = .ItemWhiteSpace) :
    constructOutput lib items value = (items.map (renderItem lib value)).flatten
    ∧ constructOutput lib lits value = (lits.map (fun i => i.val)).flatten
    ∧ constructOutput lib lits value = constructOutput lib lits value'
    ∧ constructOutput lib items .nil = [] := by
  have hgen : ∀ (l : List Item) (v : GoAny), v ≠ .nil →
      constructOutput lib l v = (l.map (renderItem lib v)).flatten := by
    intro l v hne
    unfold constructOutput
    rw [if_neg hne, constructOutput_foldl]
    simp
  have hlit : ∀ v : GoAny, v ≠ .nil →
      constructOutput lib lits v = (lits.map (fun i => i.val)).flatten := by
    intro v hne
    rw [hgen lits v hne]
    congr 1
    apply List.map_congr_left
    intro i hi
    exact renderItem_literal lib v i (hlits i hi)
  refine ⟨hgen items value hv, hlit value hv, ?_, ?_⟩
  · rw [hlit value hv, hlit value' ho]
  · simp [constructOutput]

theorem C19_constructOutput_witness :
    constructOutput plainLib demoCommand.setItems (.int 7) = ascii "P %d"
    ∧ constructOutput plainLib demoCommand.setItems (.int 7)
        = (demoCommand.setItems.map (renderItem plainLib (.int 7))).flatten
    ∧ constructOutput plainLib demoCommand.ackItems (.int 7)
        = constructOutput plainLib demoCommand.ackItems (.bool true) :=
  ⟨by decide,
   (C19_constructOutput plainLib demoCommand.setItems demoCommand.ackItems (.int 7) (.bool true)
     (by decide) (by decide) (by decide)).1,
   (C19_constructOutput plainLib demoCommand.setItems demoCommand.ackItems (.int 7) (.bool true)
     (by decide) (by decide) (by decide)).2.2.1⟩

/-! ## Claim on the progress of the splitter -/

theorem Index_take_none (T : GoString) (hT : T ≠ []) (data : GoString) (i : Nat)
    (h : Index data T = some i) : Index (data.take i) T = none := by
  cases hj : Index (data.take i) T with
  | none => rfl
  | some j =>
    exfalso
    have hb := Index_bound T (data.take i) j hj
    have hle := List.length_take_le i data
    have hpos : 0 < T.length := List.length_pos.mpr hT
    have happ := Index_append T (data.drop i) (data.take i) j hj
    rw [List.take_append_drop, h] at happ
    have : i = j := Option.some.inj happ
    omega

theorem splitter_token (T data : GoString) (atEOF : Bool) (a : Nat) (tok : GoString)
    (hT : T ≠ []) (h : splitter (some T) data atEOF = (a, some tok)) :
    1 ≤ a ∧ a ≤ data.length
    ∧ ((∃ i, Index data T = some i ∧ tok = data.take i ∧ a = i + T.length
          ∧ Index tok T = none)
      ∨ (Index data T = none ∧ atEOF = true ∧ tok = data ∧ a = data.length)) := by
  have hpos : 0 < T.length := List.length_pos.mpr hT
  unfold splitter at h
  by_cases h0 : (atEOF && data.length == 0) = true
  · simp [h0] at h
  · rw [if_neg h0] at h
    cases hi : Index data T with
    | some i =>
      simp only [hi, Prod.mk.injEq, Option.some.injEq] at h
      obtain ⟨ha, htok⟩ := h
      have hb := Index_bound T data i hi
      refine ⟨by omega, by omega, Or.inl ⟨i, rfl, htok.symm, ha.symm, ?_⟩⟩
      rw [← htok]
      exact Index_take_none T hT data i hi
    | none =>
      simp only [hi] at h
      by_cases he : atEOF = true
      · simp only [he, if_true, Prod.mk.injEq, Option.some.injEq] at h
        obtain ⟨ha, htok⟩ := h
        have hlen : data.length ≠ 0 := by
          intro hz
          apply h0
          simp [he, hz]
        refine ⟨by omega, by omega, Or.inr ⟨rfl, he, htok.symm, ha.symm⟩⟩
      · simp [he] at h

theorem Scan_advance (T rest : GoString) (a : Nat) (tok : GoString) (hT : T ≠ [])
    (h : Scan (splitter (some T)) rest = .token a tok) : 1 ≤ a ∧ a ≤ rest.length := by
  have hfinal : ∀ r : ScanResult,
      (match splitter (some T) rest true with
        | (advance, some tok) => ScanResult.token advance tok
        | (_, none) => ScanResult.stop) = r → r = .token a tok → 1 ≤ a ∧ a ≤ rest.length := by
    intro r hr hra
    subst hra
    cases hsp : splitter (some T) rest true with
    | mk adv otok =>
      cases otok with
      | none => simp [hsp] at hr
      | some t =>
        simp only [hsp, ScanResult.token.injEq] at hr
        obtain ⟨h1, h2⟩ := hr
        subst h1
        subst h2
        have := splitter_token T rest true adv t hT hsp
        exact ⟨this.1, this.2.1⟩
  unfold Scan at h
  by_cases hw : List.take maxScanTokenSize rest = []
  · simp only [hw, if_true] at h
    by_cases hl : maxScanTokenSize ≤ rest.length
    · simp [hl] at h
    · simp only [hl, if_false] at h
      exact hfinal _ h rfl
  · simp only [hw, if_false] at h
    cases hsp : splitter (some T) (List.take maxScanTokenSize rest) false with
    | mk adv otok =>
      cases otok with
      | some t =>
        simp only [hsp, ScanResult.token.injEq] at h
        obtain ⟨h1, h2⟩ := h
        subst h1
        subst h2
        have := splitter_token T _ false adv t hT hsp
        have hle : (List.take maxScanTokenSize rest).length ≤ rest.length := by
          rw [List.length_take]
          exact Nat.min_le_right _ _
        exact ⟨this.1, le_trans this.2.1 hle⟩
      | none =>
        simp only [hsp] at h
        by_cases hl : maxScanTokenSize ≤ rest.length
        · simp [hl] at h
        · simp only [hl, if_false] at h
          exact hfinal _ h rfl

theorem makeResponse_not_diverge (lib : GoLib) (s : StreamDevice) (param : GoString) :
    s.makeResponse lib param ≠ .diverge := by
  unfold StreamDevice.makeResponse
  split
  · simp
  · split
    · simp
    · dsimp only
      split <;> simp

theorem makeAck_not_diverge (lib : GoLib) (s : StreamDevice) (param : GoString) (value : GoAny) :
    s.makeAck lib param value ≠ .diverge := by
  unfold StreamDevice.makeAck
  split
  · simp
  · dsimp only
    split <;> simp

theorem parseTok_not_diverge (lib : GoLib) (s : StreamDevice) (tok : GoString) :
    s.parseTok lib tok ≠ .diverge := by
  unfold StreamDevice.parseTok
  split
  · simp
  · split
    · exact makeResponse_not_diverge lib s _
    · split
      · simp
      · split
        · simp
        · exact makeAck_not_diverge lib _ _ _
    · simp

theorem scanLoop_terminates (lib : GoLib) (T : GoString) (hT : T ≠ []) :
    ∀ (fuel : Nat) (s : StreamDevice) (rest buffer : GoString),
      s.inTerminator = some T → rest.length + 1 ≤ fuel →
      scanLoop lib fuel s rest buffer ≠ .diverge := by
  intro fuel
  induction fuel with
  | zero =>
    intro s rest buffer _ hf
    omega
  | succ f ih =>
    intro s rest buffer hs hf
    rw [scanLoop, hs]
    cases hscan : Scan (splitter (some T)) rest with
    | stop => simp
    | tooLong => simp
    | token advance tok =>
      have hadv := Scan_advance T rest advance tok hT hscan
      cases hp : s.parseTok lib tok with
      | ret r =>
        obtain ⟨s1, reply⟩ := r
        simp only [hp]
        have hs1 := (parseTok_config lib s s1 tok reply hp).1
        apply ih s1 _ _ (hs1.trans hs)
        rw [List.length_drop]
        omega
      | panic => simp [hp]
      | diverge => exact absurd hp (parseTok_not_diverge lib s tok)

theorem scanLoop_more_fuel (lib : GoLib) :
    ∀ (fuel : Nat) (s : StreamDevice) (rest buffer : GoString) (k : Nat),
      scanLoop lib fuel s rest buffer ≠ .diverge →
      scanLoop lib (fuel + k) s rest buffer = scanLoop lib fuel s rest buffer := by
  intro fuel
  induction fuel with
  | zero =>
    intro s rest buffer k h
    exact absurd rfl h
  | succ f ih =>
    intro s rest buffer k h
    have hk : f + 1 + k = (f + k) + 1 := by omega
    rw [hk, scanLoop, scanLoop]
    rw [scanLoop] at h
    cases hscan : Scan (splitter s.inTerminator) rest with
    | stop => rfl
    | tooLong => rfl
    | token advance tok =>
      simp only [hscan] at h ⊢
      cases hp : s.parseTok lib tok with
      | ret r =>
        obtain ⟨s1, reply⟩ := r
        simp only [hp] at h ⊢
        exact ih s1 _ _ k h
      | panic => simp only [hp]
      | diverge => simp only [hp]

/-- C20: for a non-empty input terminator `T` and non-empty `data`, a token that
the splitter returns comes with an advance `a` such that `1 <= a <= len(data)`.
Either `T` occurs in `data`, the token is the prefix of `data` before the first
occurrence, `a` is the offset of that occurrence plus `len(T)`, and `T` does not
occur in the token; or `T` does not occur, the call is at end of input, the
token is all of `data` and `a = len(data)`. Hence every token of the scanner
advances by at least one byte, and the scan loop of `Handle` ends: it never
needs more than `len(chunk) + 1` calls of `Scan`, that is, it dispatches at most
`len(chunk)` tokens. -/
theorem C20_splitter_progress (lib : GoLib) (s : StreamDevice) (T data chunk : GoString)
    (atEOF : Bool) (a : Nat) (tok : GoString)
    (hT : T ≠ []) (hd : data ≠ []) (hs : s.inTerminator = some T)
    (h : splitter (some T) data atEOF = (a, some tok)) :
    1 ≤ a ∧ a ≤ data.length
    ∧ ((∃ i, Index data T = some i ∧ tok = data.take i ∧ a = i + T.length
          ∧ Index tok T = none)
      ∨ (Index data T = none ∧ atEOF = true ∧ tok = data ∧ a = data.length))
    ∧ (∀ rest a' tok', Scan (splitter (some T)) rest = .token a' tok' →
        1 ≤ a' ∧ a' ≤ rest.length)
    ∧ s.Handle lib chunk ≠ .diverge
    ∧ (∀ k, scanLoop lib (chunk.length + 1 + k) s chunk [] = s.Handle lib chunk) := by
  have _ := hd
  obtain ⟨h1, h2, h3⟩ := splitter_token T data atEOF a tok hT h
  have hterm : s.Handle lib chunk ≠ .diverge :=
    scanLoop_terminates lib T hT (chunk.length + 1) s chunk [] hs (le_refl _)
  refine ⟨h1, h2, h3, ?_, hterm, ?_⟩
  · intro rest a' tok' hscan
    exact Scan_advance T rest a' tok' hT hscan
  · intro k
    exact scanLoop_more_fuel lib (chunk.length + 1) s chunk [] k hterm

theorem C20_splitter_progress_witness :
    splitter (some (ascii "\n")) (ascii "P?\nP 2") false = (3, some (ascii "P?"))
    ∧ (1 ≤ 3 ∧ 3 ≤ (ascii "P?\nP 2").length)
    ∧ splitter (some (ascii "\n")) (ascii "P 2") true = (3, some (ascii "P 2"))
    ∧ demoDevice.Handle plainLib (ascii "P?\nP 2") ≠ .diverge :=
  ⟨by decide,
   ⟨(C20_splitter_progress plainLib demoDevice (ascii "\n") (ascii "P?\nP 2") (ascii "P?\nP 2")
      false 3 (ascii "P?") (by decide) (by decide) (by decide) (by decide)).1,
    (C20_splitter_progress plainLib demoDevice (ascii "\n") (ascii "P?\nP 2") (ascii "P?\nP 2")
      false 3 (ascii "P?") (by decide) (by decide) (by decide) (by decide)).2.1⟩,
   by decide,
   (C20_splitter_progress plainLib demoDevice (ascii "\n") (ascii "P?\nP 2") (ascii "P?\nP 2")
      false 3 (ascii "P?") (by decide) (by decide) (by decide) (by decide)).2.2.2.2.1⟩

/-! ## Claim on the safety of the parameter lookups -/

theorem findStreamCommand_first (s : StreamDevice) (name : GoString) (c : streamCommand)
    (h : s.findStreamCommand name = some c) :
    c ∈ s.streamCmd
    ∧ ∃ pre post, s.streamCmd = pre ++ c :: post ∧ ∀ d ∈ pre, d.Param ≠ name := by
  unfold StreamDevice.findStreamCommand at h
  refine ⟨List.mem_of_find?_eq_some h, ?_⟩
  obtain ⟨_, pre, post, hsplit, hpre⟩ := List.find?_eq_some.mp h
  refine ⟨pre, post, hsplit, ?_⟩
  intro d hd
  have := hpre d hd
  simpa using this

theorem findStreamCommand_none (s : StreamDevice) (name : GoString) :
    s.findStreamCommand name = none ↔ ∀ c ∈ s.streamCmd, c.Param ≠ name := by
  unfold StreamDevice.findStreamCommand
  rw [List.find?_eq_none]
  constructor
  · intro h c hc
    simpa using h c hc
  · intro h c hc
    simpa using h c hc

/-- C21: when the `Param` of every stream command is a key of the parameter map,
then for every name `makeResponse`, `makeAck` and `Trigger` never call a method
of a missing parameter (none of them panics). A name without a stream command
gets an empty reply from `makeResponse` and `makeAck` and `ErrParamNotFound`
from `Trigger`, each on an unchanged device; a name with a stream command
resolves through `findStreamCommand` to the first command whose `Param` is that
name, and the parameter of that command is in the map. -/
theorem C21_lookup_safety (lib : GoLib) (s : StreamDevice) (name : GoString) (value : GoAny)
    (hwf : ∀ c ∈ s.streamCmd, ∃ cell, s.param.get c.Param = some cell) :
    s.makeResponse lib name ≠ .panic
    ∧ s.makeAck lib name value ≠ .panic
    ∧ s.Trigger lib name ≠ .panic
    ∧ (s.findStreamCommand name = none ↔ ∀ c ∈ s.streamCmd, c.Param ≠ name)
    ∧ (s.findStreamCommand name = none →
        s.makeResponse lib name = .ret (s, [])
        ∧ s.makeAck lib name value = .ret (s, [])
        ∧ s.Trigger lib name = .ret (s, some .ErrParamNotFound))
    ∧ (∀ c, s.findStreamCommand name = some c →
        c.Param = name
        ∧ (∃ pre post, s.streamCmd = pre ++ c :: post ∧ ∀ d ∈ pre, d.Param ≠ name)
        ∧ ∃ cell, s.param.get c.Param = some cell) := by
  have hknown : ∀ c, s.findStreamCommand name = some c →
      c.Param = name
      ∧ (∃ pre post, s.streamCmd = pre ++ c :: post ∧ ∀ d ∈ pre, d.Param ≠ name)
      ∧ ∃ cell, s.param.get c.Param = some cell := by
    intro c hc
    obtain ⟨hmem, hfirst⟩ := findStreamCommand_first s name c hc
    exact ⟨findStreamCommand_param s name c hc, hfirst, hwf c hmem⟩
  refine ⟨?_, ?_, ?_, findStreamCommand_none s name, ?_, hknown⟩
  · unfold StreamDevice.makeResponse
    cases hc : s.findStreamCommand name with
    | none => simp
    | some c =>
      obtain ⟨_, _, cell, hcell⟩ := hknown c hc
      simp only [hcell]
      split <;> simp
  · unfold StreamDevice.makeAck
    cases hc : s.findStreamCommand name with
    | none => simp
    | some c =>
      dsimp only
      split <;> simp
  · unfold StreamDevice.Trigger
    cases hc : s.findStreamCommand name with
    | none => simp
    | some c =>
      obtain ⟨_, _, cell, hcell⟩ := hknown c hc
      simp only [hcell]
      split
      · simp
      · split <;> simp
  · intro hnone
    refine ⟨?_, ?_, ?_⟩
    · unfold StreamDevice.makeResponse
      rw [hnone]
    · unfold StreamDevice.makeAck
      rw [hnone]
    · unfold StreamDevice.Trigger
      rw [hnone]

theorem C21_lookup_safety_witness :
    (∀ c ∈ demoDevice.streamCmd, ∃ cell, demoDevice.param.get c.Param = some cell)
    ∧ demoDevice.findStreamCommand (ascii "p") = some demoCommand
    ∧ demoDevice.findStreamCommand (ascii "q") = none
    ∧ (demoDevice.makeResponse plainLib (ascii "q")).reply = some []
    ∧ (demoDevice.Trigger plainLib (ascii "q")).triggerResult
        = some ({ waiting := false, received := [] }, some .ErrParamNotFound)
    ∧ demoDevice.makeResponse plainLib (ascii "p") ≠ .panic
    ∧ demoDevice.Trigger plainLib (ascii "p") ≠ .panic :=
  ⟨fun c hc => ⟨cell12, by
      rw [show demoDevice.streamCmd = [demoCommand] from rfl, List.mem_singleton] at hc
      rw [hc]
      decide⟩,
   by decide, by decide, by decide, by decide,
   (C21_lookup_safety plainLib demoDevice (ascii "p") (.int 1) (fun c hc => ⟨cell12, by
      rw [show demoDevice.streamCmd = [demoCommand] from rfl, List.mem_singleton] at hc
      rw [hc]
      decide⟩)).1,
   (C21_lookup_safety plainLib demoDevice (ascii "p") (.int 1) (fun c hc => ⟨cell12, by
      rw [show demoDevice.streamCmd = [demoCommand] from rfl, List.mem_singleton] at hc
      rw [hc]
      decide⟩)).2.2.1⟩

end VD
